import Mathlib

/-!
Verification development for the learnloop-backend moderation and feed core.

The definitions below are a shallow embedding of the repository's
JavaScript controllers into Lean:
* the feed controller (home / topic / author feeds) and the comment-listing
  controller are translated line by line from the source;
* the report ledger (submit / dismiss) is not present as source code in the
  snapshot, so it is modelled from the specification's description of the
  transaction, as flagged on the individual definitions.

Database rows become Lean structures, a database state is a record of row
lists, request handlers become total functions returning `Except` with the
HTTP error status on the error side, and the Prisma query combinators
(`where`, `orderBy`, `skip`, `take`) become `List.filter`, a stable
structural sort, `List.drop` and `List.take`.
-/

namespace LearnLoop

/-- A row of the `posts` table.  Fields relevant to the claims:
`deletedAt` (soft-delete timestamp, nullable), `isHidden` (moderation flag),
`authorId`, `primaryTopicId`, `createdAt`.  Identifiers and timestamps are
modelled as naturals. -/
structure Post where
  id : Nat
  authorId : Nat
  primaryTopicId : Nat
  createdAt : Nat
  deletedAt : Option Nat
  isHidden : Bool
deriving DecidableEq, Repr

/-- A row of the `comments` table.  Per the Phase 1 schema comments have no
`deletedAt` column (they are hard-deleted); Phase 8 added `isHidden`. -/
structure Comment where
  id : Nat
  authorId : Nat
  postId : Nat
  createdAt : Nat
  isHidden : Bool
deriving DecidableEq, Repr

/-- The enumerated report reasons of the `Report` Prisma model. -/
inductive ReportReason where
  | SPAM
  | INAPPROPRIATE
  | HARASSMENT
  | MISINFORMATION
  | OFF_TOPIC
  | OTHER
deriving DecidableEq, Repr

/-- A row of the `reports` table: reporter, exactly one of
postId / commentId, reason, timestamp. -/
structure Report where
  id : Nat
  reporterId : Nat
  postId : Option Nat
  commentId : Option Nat
  reason : ReportReason
  createdAt : Nat
deriving DecidableEq, Repr

/-- A row of the `votes` table (upvote-only; target is a post or a comment). -/
structure Vote where
  id : Nat
  userId : Nat
  postId : Option Nat
  commentId : Option Nat
deriving DecidableEq, Repr

/-- The database state: users and topics are kept as lists of their ids,
`savedPosts` as (userId, postId) pairs, matching the composite key. -/
structure DB where
  users : List Nat
  topics : List Nat
  posts : List Post
  comments : List Comment
  votes : List Vote
  savedPosts : List (Nat × Nat)
  reports : List Report
deriving DecidableEq, Repr

/-- The viewer context derived from `req.user` by the auth middleware:
`userId = req.user?.id` and `isAdmin = req.user?.isAdmin || false`. -/
structure Viewer where
  userId : Option Nat
  isAdmin : Bool
deriving DecidableEq, Repr

/-- JavaScript `parseInt(q) || d`: `none` models `NaN` (absent or unparsable
input) and, because `0` is falsy, an explicit `0` also falls back to the
default. -/
def jsOrInt (q : Option Int) (d : Int) : Int :=
  match q with
  | none => d
  | some v => if v = 0 then d else v

/-- Vote count of a post, Prisma's `_count.votes`. -/
def voteCountOf (db : DB) (pid : Nat) : Nat :=
  (db.votes.filter (fun v => v.postId == some pid)).length

/-- Comment count of a post, Prisma's `_count.comments`. -/
def commentCountOf (db : DB) (pid : Nat) : Nat :=
  (db.comments.filter (fun c => c.postId == pid)).length

/-- The shaped post object returned by the feed endpoints.  The joined
`author` and `primaryTopic` projections are represented by their ids. -/
structure EnrichedPost where
  id : Nat
  createdAt : Nat
  author : Nat
  primaryTopic : Nat
  voteCount : Nat
  commentCount : Nat
  hasVoted : Bool
  isSaved : Bool
  userVoteId : Option Nat
  isHidden : Bool
deriving DecidableEq, Repr

/-- The per-post enrichment step of the feed controller: vote count, comment
count and, when a user is authenticated, their vote and saved status. -/
def enrichPost (db : DB) (viewer : Viewer) (p : Post) : EnrichedPost :=
  let vote : Option Vote :=
    match viewer.userId with
    | some uid => db.votes.find? (fun v => v.userId == uid && v.postId == some p.id)
    | none => none
  let saved :=
    match viewer.userId with
    | some uid => db.savedPosts.any (fun s => s == (uid, p.id))
    | none => false
  { id := p.id
    createdAt := p.createdAt
    author := p.authorId
    primaryTopic := p.primaryTopicId
    voteCount := voteCountOf db p.id
    commentCount := commentCountOf db p.id
    hasVoted := vote.isSome
    isSaved := saved
    userVoteId := vote.map (fun v => v.id)
    isHidden := p.isHidden }

/-- The database ordering of the feed queries:
`orderBy [{createdAt: desc}, {id: desc}]`. -/
def postRowLe (a b : Post) : Bool :=
  b.createdAt < a.createdAt || (a.createdAt == b.createdAt && b.id ≤ a.id)

/-- The client-side re-sort comparator of the feed controller:
`createdAt` descending, then `voteCount` descending. -/
def enrichedLe (a b : EnrichedPost) : Bool :=
  b.createdAt < a.createdAt || (a.createdAt == b.createdAt && b.voteCount ≤ a.voteCount)

/-- The `where` clause of the home feed query:
`deletedAt: null, ...(isAdmin ? {} : { isHidden: false })`. -/
def homeWhere (isAdmin : Bool) (p : Post) : Bool :=
  p.deletedAt == none && (isAdmin || !p.isHidden)

/-- The `where` clause of the topic feed query: the home-feed clause plus
`primaryTopicId: topicId`. -/
def topicWhere (isAdmin : Bool) (topicId : Nat) (p : Post) : Bool :=
  p.primaryTopicId == topicId && (p.deletedAt == none && (isAdmin || !p.isHidden))

/-- The `where` clause of the author feed query:
`authorId, deletedAt: null, ...(showHidden ? {} : { isHidden: false })`. -/
def authorWhere (showHidden : Bool) (authorId : Nat) (p : Post) : Bool :=
  p.authorId == authorId && (p.deletedAt == none && (showHidden || !p.isHidden))

/-- Pagination object of the feed responses. -/
structure Pagination where
  limit : Int
  offset : Int
  hasMore : Bool
deriving DecidableEq, Repr

/-- Response body of `GET /api/feed/home`. -/
structure HomeFeedResponse where
  posts : List EnrichedPost
  pagination : Pagination
deriving DecidableEq, Repr

/-- Response body of `GET /api/feed/topic/:topicId`. -/
structure TopicFeedResponse where
  topic : Nat
  posts : List EnrichedPost
  pagination : Pagination
deriving DecidableEq, Repr

/-- Response body of `GET /api/feed/author/:authorId`. -/
structure AuthorFeedResponse where
  author : Nat
  posts : List EnrichedPost
  pagination : Pagination
deriving DecidableEq, Repr

/-- The shared tail of the three feed handlers: sort the filtered rows by
`(createdAt desc, id desc)`, page with `skip`/`take`, enrich, then re-sort
the page by `(createdAt desc, voteCount desc)`.  A stable structural sort
stands for the database `ORDER BY` and the engine's stable `Array#sort`. -/
def feedPage (db : DB) (viewer : Viewer) (filtered : List Post)
    (limit offset : Nat) : List Post × List EnrichedPost :=
  let sorted := filtered.insertionSort (fun a b => postRowLe a b = true)
  let page := (sorted.drop offset).take limit
  (page, (page.map (enrichPost db viewer)).insertionSort (fun a b => enrichedLe a b = true))

/-- `getHomeFeed` from the feed controller: parse pagination
(`min(parseInt(limit) || 20, 100)`, `parseInt(offset) || 0`, reject
`limit < 1` or `offset < 0` with 400), query non-deleted posts (hidden ones
only for admins), page, enrich and re-sort; `hasMore` is whether the page
filled the limit. -/
def getHomeFeed (db : DB) (viewer : Viewer) (limitQ offsetQ : Option Int) :
    Except Nat HomeFeedResponse :=
  let limit : Int := min (jsOrInt limitQ 20) 100
  let offset : Int := jsOrInt offsetQ 0
  if limit < 1 || offset < 0 then .error 400
  else
    let filtered := db.posts.filter (homeWhere viewer.isAdmin)
    let pe := feedPage db viewer filtered limit.toNat offset.toNat
    .ok { posts := pe.2
          pagination :=
            { limit := limit, offset := offset
              hasMore := pe.1.length == limit.toNat } }

/-- `getTopicFeed` from the feed controller: like the home feed but scoped to
one topic, after verifying the topic exists (404 otherwise). -/
def getTopicFeed (db : DB) (viewer : Viewer) (topicId : Nat)
    (limitQ offsetQ : Option Int) : Except Nat TopicFeedResponse :=
  let limit : Int := min (jsOrInt limitQ 20) 100
  let offset : Int := jsOrInt offsetQ 0
  if limit < 1 || offset < 0 then .error 400
  else if !(db.topics.contains topicId) then .error 404
  else
    let filtered := db.posts.filter (topicWhere viewer.isAdmin topicId)
    let pe := feedPage db viewer filtered limit.toNat offset.toNat
    .ok { topic := topicId
          posts := pe.2
          pagination :=
            { limit := limit, offset := offset
              hasMore := pe.1.length == limit.toNat } }

/-- `getAuthorFeed` from the feed controller: verify the author exists (404),
compute `showHidden = isOwnProfile || isAdmin`, and include hidden posts only
when `showHidden` holds. -/
def getAuthorFeed (db : DB) (viewer : Viewer) (authorId : Nat)
    (limitQ offsetQ : Option Int) : Except Nat AuthorFeedResponse :=
  let limit : Int := min (jsOrInt limitQ 20) 100
  let offset : Int := jsOrInt offsetQ 0
  if limit < 1 || offset < 0 then .error 400
  else if !(db.users.contains authorId) then .error 404
  else
    let showHidden := viewer.userId == some authorId || viewer.isAdmin
    let filtered := db.posts.filter (authorWhere showHidden authorId)
    let pe := feedPage db viewer filtered limit.toNat offset.toNat
    .ok { author := authorId
          posts := pe.2
          pagination :=
            { limit := limit, offset := offset
              hasMore := pe.1.length == limit.toNat } }

/-- Comment ordering of the comment-listing query: `createdAt` ascending. -/
def commentRowLe (a b : Comment) : Bool :=
  a.createdAt ≤ b.createdAt

/-- Pagination object of the comment-listing response, which also carries the
total count. -/
structure CommentsPagination where
  total : Nat
  limit : Int
  offset : Int
  hasMore : Bool
deriving DecidableEq, Repr

/-- Response body of `GET /api/posts/:postId/comments`. -/
structure CommentListResponse where
  comments : List Comment
  pagination : CommentsPagination
deriving DecidableEq, Repr

/-- `listCommentsForPost` from the comments controller: parse pagination
(`min(parseInt(limit) || 50, 100)`, `max(parseInt(offset) || 0, 0)`), check
the parent post exists and is not soft-deleted (404 otherwise), then return
the page of ALL comments of the post — the only `where` condition on the
comment query is `postId`; there is no visibility filtering and the handler
receives no viewer identity.  `hasMore` is `offset + limit < total`. -/
def listCommentsForPost (db : DB) (postId : Nat) (limitQ offsetQ : Option Int) :
    Except Nat CommentListResponse :=
  let parsedLimit : Int := min (jsOrInt limitQ 50) 100
  let parsedOffset : Int := max (jsOrInt offsetQ 0) 0
  match db.posts.find? (fun p => p.id == postId && p.deletedAt.isNone) with
  | none => .error 404
  | some _ =>
    let allComments := db.comments.filter (fun c => c.postId == postId)
    let sorted := allComments.insertionSort (fun a b => commentRowLe a b = true)
    let page := (sorted.drop parsedOffset.toNat).take parsedLimit.toNat
    .ok { comments := page
          pagination :=
            { total := allComments.length
              limit := parsedLimit
              offset := parsedOffset
              hasMore := decide (parsedOffset + parsedLimit < (allComments.length : Int)) } }

/-- Error taxonomy of the report-submission endpoint
(400 / 404 / 403 / 409). -/
inductive SubmitError where
  | invalidRequest
  | notFound
  | forbidden
  | conflict
deriving DecidableEq, Repr

/-- Modelled from the spec: `tx.post.update({ where: { id }, data:
{ isHidden: true } })` — the conditional hide step of the auto-hide
transaction (the report controller's source is not in the snapshot; the
update shape follows the transaction snippet in the moderation document). -/
def hidePostDB (db : DB) (pid : Nat) : DB :=
  { db with posts := db.posts.map (fun p => if p.id == pid then { p with isHidden := true } else p) }

/-- Modelled from the spec: the comment counterpart of `hidePostDB`. -/
def hideCommentDB (db : DB) (cid : Nat) : DB :=
  { db with comments := db.comments.map (fun c => if c.id == cid then { c with isHidden := true } else c) }

/-- Modelled from the spec: the admin `isHidden = false` update on a post
used by the unhide and dismiss operations. -/
def unhidePostDB (db : DB) (pid : Nat) : DB :=
  { db with posts := db.posts.map (fun p => if p.id == pid then { p with isHidden := false } else p) }

/-- Modelled from the spec: the comment counterpart of `unhidePostDB`. -/
def unhideCommentDB (db : DB) (cid : Nat) : DB :=
  { db with comments := db.comments.map (fun c => if c.id == cid then { c with isHidden := false } else c) }

/-- Modelled from the spec: the submit-report operation, whose controller
source is missing from the snapshot.  Validation in the documented order —
exactly one of postId/commentId (400), target exists and is not soft-deleted
(404; comments have no soft-delete column, so existence suffices), no
self-report (403), no prior report by this reporter on this target (409) —
followed by the atomic transaction: insert the report row, recompute the
live report count for the target, and set `isHidden := true` when the count
reached 5 and the flag is currently false.  The whole operation is one Lean
function, mirroring the all-or-nothing transaction. -/
def submitReport (db : DB) (reporterId : Nat) (postId commentId : Option Nat)
    (reason : ReportReason) (newId now : Nat) : Except SubmitError (DB × Report) :=
  match postId, commentId with
  | some pid, none =>
    match db.posts.find? (fun p => p.id == pid && p.deletedAt.isNone) with
    | none => .error .notFound
    | some target =>
      if target.authorId == reporterId then .error .forbidden
      else if db.reports.any (fun r => r.reporterId == reporterId && r.postId == some pid) then
        .error .conflict
      else
        let rep : Report :=
          { id := newId, reporterId := reporterId, postId := some pid
            commentId := none, reason := reason, createdAt := now }
        let db1 : DB := { db with reports := db.reports ++ [rep] }
        let cnt := (db1.reports.filter (fun r => r.postId == some pid)).length
        let db2 := if 5 ≤ cnt && !target.isHidden then hidePostDB db1 pid else db1
        .ok (db2, rep)
  | none, some cid =>
    match db.comments.find? (fun c => c.id == cid) with
    | none => .error .notFound
    | some target =>
      if target.authorId == reporterId then .error .forbidden
      else if db.reports.any (fun r => r.reporterId == reporterId && r.commentId == some cid) then
        .error .conflict
      else
        let rep : Report :=
          { id := newId, reporterId := reporterId, postId := none
            commentId := some cid, reason := reason, createdAt := now }
        let db1 : DB := { db with reports := db.reports ++ [rep] }
        let cnt := (db1.reports.filter (fun r => r.commentId == some cid)).length
        let db2 := if 5 ≤ cnt && !target.isHidden then hideCommentDB db1 cid else db1
        .ok (db2, rep)
  | _, _ => .error .invalidRequest

/-- Modelled from the spec: the admin dismiss operation
(`POST /api/admin/reports/:id/dismiss`), whose controller source is missing
from the snapshot.  It resolves the report to its target item (404 when the
report or the target is missing), deletes every report row referencing that
exact target, and sets `isHidden := false` on the item, as one transaction.
The result carries the target's postId/commentId as in the documented
response body. -/
def dismissReports (db : DB) (reportId : Nat) : Except Nat (DB × Option Nat × Option Nat) :=
  match db.reports.find? (fun r => r.id == reportId) with
  | none => .error 404
  | some rep =>
    match rep.postId, rep.commentId with
    | some pid, _ =>
      match db.posts.find? (fun p => p.id == pid) with
      | none => .error 404
      | some _ =>
        let db1 : DB := { db with reports := db.reports.filter (fun r => !(r.postId == some pid)) }
        .ok (unhidePostDB db1 pid, some pid, none)
    | none, some cid =>
      match db.comments.find? (fun c => c.id == cid) with
      | none => .error 404
      | some _ =>
        let db1 : DB := { db with reports := db.reports.filter (fun r => !(r.commentId == some cid)) }
        .ok (unhideCommentDB db1 cid, none, some cid)
    | none, none => .error 404

/-- The live report count of a post: the rows referencing it. -/
def countPostReports (db : DB) (pid : Nat) : Nat :=
  (db.reports.filter (fun r => r.postId == some pid)).length

/-- The live report count of a comment: the rows referencing it. -/
def countCommentReports (db : DB) (cid : Nat) : Nat :=
  (db.reports.filter (fun r => r.commentId == some cid)).length

/-- The hidden flag of the post with a given id (`false` when absent). -/
def hiddenOf (db : DB) (pid : Nat) : Bool :=
  match db.posts.find? (fun p => p.id == pid) with
  | some p => p.isHidden
  | none => false

/-- Modelled from the spec: a serial schedule of report submissions against
one post, one per listed reporter — the transaction's isolation makes any
concurrent execution equivalent to such a serialization.  Returns the final
state together with the number of submissions that flipped the post's hidden
flag from false to true.  Report ids simulate the autoincrement column. -/
def runSubmits (db : DB) (pid : Nat) : List Nat → DB × Nat
  | [] => (db, 0)
  | r :: rs =>
    match submitReport db r (some pid) none .SPAM db.reports.length 0 with
    | .ok (db1, _) =>
      let rest := runSubmits db1 pid rs
      (rest.1, (if hiddenOf db pid = false ∧ hiddenOf db1 pid = true then 1 else 0) + rest.2)
    | .error _ => runSubmits db pid rs

/-- A post literal used by the concrete instances below. -/
def mkPost (i a t c : Nat) (d : Option Nat) (h : Bool) : Post :=
  { id := i, authorId := a, primaryTopicId := t, createdAt := c, deletedAt := d, isHidden := h }

/-- A post-targeted report literal used by the concrete instances below. -/
def mkPostReport (i u pid : Nat) : Report :=
  { id := i, reporterId := u, postId := some pid, commentId := none
    reason := .SPAM, createdAt := 0 }

/-- Concrete state for C1: post 1 (by user 7, not deleted) carries one
comment, id 10 by user 2, that moderation has hidden. -/
def c1db : DB :=
  { users := [7, 2], topics := [1]
    posts := [mkPost 1 7 1 10 none false]
    comments := [{ id := 10, authorId := 2, postId := 1, createdAt := 5, isHidden := true }]
    votes := [], savedPosts := [], reports := [] }

/-- Concrete state for C3: a single non-deleted post by user 7 that
moderation has hidden. -/
def c3db : DB :=
  { users := [7], topics := [1]
    posts := [mkPost 1 7 1 10 none true]
    comments := [], votes := [], savedPosts := [], reports := [] }

/-- The hidden post of `c3db`. -/
def c3post : Post := mkPost 1 7 1 10 none true

/-- The post's own author, authenticated and not an admin. -/
def c3viewer : Viewer := { userId := some 7, isAdmin := false }

/-- Concrete state for C2 and C7: post 1 by user 0, already reported by
users 1 to 4, not yet hidden. -/
def c2db : DB :=
  { users := [0, 1, 2, 3, 4, 5], topics := [1]
    posts := [mkPost 1 0 1 10 none false]
    comments := [], votes := [], savedPosts := []
    reports := [mkPostReport 0 1 1, mkPostReport 1 2 1, mkPostReport 2 3 1, mkPostReport 3 4 1] }

/-- Concrete state for C7's witness: post 1 by user 0 with no reports yet. -/
def c7db : DB :=
  { users := [0, 1], topics := [1]
    posts := [mkPost 1 0 1 10 none false]
    comments := [], votes := [], savedPosts := [], reports := [] }

/-- Concrete state for C6: post 1 is hidden and carries two reports. -/
def c6db : DB :=
  { users := [0, 1, 2], topics := [1]
    posts := [mkPost 1 0 1 10 none true]
    comments := [], votes := [], savedPosts := []
    reports := [mkPostReport 0 1 1, mkPostReport 1 2 1] }

/-- Concrete state for C8: post 1 by user 0, unhidden and unreported. -/
def c8db : DB :=
  { users := [0, 1, 2, 3, 4, 5], topics := [1]
    posts := [mkPost 1 0 1 10 none false]
    comments := [], votes := [], savedPosts := [], reports := [] }

/-- The state of `c2db` after user 5's report: the fifth report row exists
and the post has been auto-hidden. -/
def c2dbAfter : DB :=
  { users := [0, 1, 2, 3, 4, 5], topics := [1]
    posts := [mkPost 1 0 1 10 none true]
    comments := [], votes := [], savedPosts := []
    reports := [mkPostReport 0 1 1, mkPostReport 1 2 1, mkPostReport 2 3 1,
                mkPostReport 3 4 1, mkPostReport 4 5 1] }

/-- The state of `c7db` after user 1's first report. -/
def c7dbAfter : DB :=
  { users := [0, 1], topics := [1]
    posts := [mkPost 1 0 1 10 none false]
    comments := [], votes := [], savedPosts := []
    reports := [mkPostReport 0 1 1] }

/-- The state of `c6db` after dismissing report 0: no reports remain and the
post is unhidden. -/
def c6dbAfter : DB :=
  { users := [0, 1, 2], topics := [1]
    posts := [mkPost 1 0 1 10 none false]
    comments := [], votes := [], savedPosts := [], reports := [] }

/-- Concrete state for C4, C5, C9 and C10: two non-deleted posts by user 7
with the same creation timestamp; post 1 has one vote, post 2 none; post 3
is soft-deleted and post 4 is hidden. -/
def exdb : DB :=
  { users := [7], topics := [1]
    posts := [mkPost 1 7 1 10 none false, mkPost 2 7 1 10 none false,
              mkPost 3 7 1 11 (some 12) false, mkPost 4 7 1 13 none true]
    comments := []
    votes := [{ id := 1, userId := 3, postId := some 1, commentId := none }]
    savedPosts := [], reports := [] }

end LearnLoop

namespace LearnLoop

example : jsOrInt none 20 = 20 := rfl

example : jsOrInt (some 0) 20 = 20 := rfl

example : jsOrInt (some 7) 20 = 7 := rfl

/-- When a row update preserves a predicate's value, `find?` commutes with
mapping the update over the table. -/
theorem find?_map_pres {α : Type} (u : α → α) (P : α → Bool)
    (hu : ∀ a, P (u a) = P a) :
    ∀ l : List α, (l.map u).find? P = (l.find? P).map u := by
  intro l
  induction l with
  | nil => rfl
  | cons a t ih =>
    cases h : P a with
    | true => simp [List.find?, hu, h]
    | false => simpa [List.find?, hu, h] using ih

/-- Strengthening the predicate of a successful `find?` by a condition the
found row satisfies does not change the result. -/
theorem find?_and {α : Type} (P Q : α → Bool) :
    ∀ (l : List α) (x : α), l.find? P = some x → Q x = true →
      l.find? (fun y => P y && Q y) = some x := by
  intro l
  induction l with
  | nil => intro x h; simp [List.find?] at h
  | cons a t ih =>
    intro x h hQ
    cases hp : P a with
    | true =>
      simp [List.find?, hp] at h
      subst h
      simp [List.find?, hp, hQ]
    | false =>
      simp [List.find?, hp] at h
      simpa [List.find?, hp] using ih x h hQ

/-- Every member of a list is the unique element of some one-element page. -/
theorem exists_drop_take_singleton {α : Type} (a : α) :
    ∀ l : List α, a ∈ l → ∃ i : Nat, (l.drop i).take 1 = [a] := by
  intro l
  induction l with
  | nil => intro h; cases h
  | cons b t ih =>
    intro h
    rcases List.mem_cons.mp h with h | h
    · exact ⟨0, by simp [h]⟩
    · rcases ih h with ⟨i, hi⟩
      exact ⟨i + 1, by simpa using hi⟩

/-- Transitivity of the client-side feed comparator. -/
theorem enrichedLe_trans :
    ∀ a b c : EnrichedPost, enrichedLe a b = true → enrichedLe b c = true →
      enrichedLe a c = true := by
  intro a b c
  simp only [enrichedLe, Bool.or_eq_true, Bool.and_eq_true, beq_iff_eq,
    decide_eq_true_eq]
  omega

/-- Totality of the client-side feed comparator. -/
theorem enrichedLe_total :
    ∀ a b : EnrichedPost, (enrichedLe a b || enrichedLe b a) = true := by
  intro a b
  simp only [enrichedLe, Bool.or_eq_true, Bool.and_eq_true, beq_iff_eq,
    decide_eq_true_eq]
  omega

/-- The enriched page produced by the shared feed tail is sorted by the
client-side comparator. -/
theorem feedPage_pairwise (db : DB) (viewer : Viewer) (filtered : List Post)
    (limit offset : Nat) :
    (feedPage db viewer filtered limit offset).2.Pairwise
      (fun a b => enrichedLe a b = true) :=
  @List.sorted_insertionSort EnrichedPost (fun a b => enrichedLe a b = true)
    (fun _ _ => instDecidableEqBool _ _)
    ⟨fun a b => by
      cases h : enrichedLe a b
      · exact Or.inr (by
          have := enrichedLe_total a b
          simpa [h] using this)
      · exact Or.inl rfl⟩
    ⟨fun a b c => enrichedLe_trans a b c⟩ _

/-- Every enriched post of a feed page is the enrichment of some row that
passed the query's filter. -/
theorem mem_feedPage (db : DB) (viewer : Viewer) (filtered : List Post)
    (limit offset : Nat) (e : EnrichedPost) :
    e ∈ (feedPage db viewer filtered limit offset).2 →
      ∃ p, p ∈ filtered ∧ e = enrichPost db viewer p := by
  intro h
  have h1 : e ∈ (((filtered.insertionSort (fun a b => postRowLe a b = true)).drop
      offset).take limit).map (enrichPost db viewer) :=
    (List.mem_insertionSort _).mp h
  rcases List.mem_map.mp h1 with ⟨p, hp, he⟩
  have hp2 : p ∈ (filtered.insertionSort (fun a b => postRowLe a b = true)).drop offset :=
    List.take_subset _ _ hp
  have hp3 : p ∈ filtered.insertionSort (fun a b => postRowLe a b = true) :=
    List.drop_subset _ _ hp2
  exact ⟨p, (List.mem_insertionSort _).mp hp3, he.symm⟩

/-- The enriched page has the same length as the database page. -/
theorem feedPage_length (db : DB) (viewer : Viewer) (filtered : List Post)
    (limit offset : Nat) :
    (feedPage db viewer filtered limit offset).2.length =
      (feedPage db viewer filtered limit offset).1.length := by
  show (((((filtered.insertionSort (fun a b => postRowLe a b = true)).drop offset).take
    limit).map (enrichPost db viewer)).insertionSort (fun a b => enrichedLe a b = true)).length = _
  rw [List.length_insertionSort, List.length_map]
  rfl

/-- Inversion of a successful home-feed request: the response is the shared
feed tail applied to the home `where` clause, for some validated limit and
offset. -/
theorem getHomeFeed_ok (db : DB) (viewer : Viewer) (lq oq : Option Int)
    (resp : HomeFeedResponse) (h : getHomeFeed db viewer lq oq = .ok resp) :
    ∃ limit offset : Int, 1 ≤ limit ∧ 0 ≤ offset ∧
      resp = ⟨(feedPage db viewer (db.posts.filter (homeWhere viewer.isAdmin))
                  limit.toNat offset.toNat).2,
              ⟨limit, offset,
                (feedPage db viewer (db.posts.filter (homeWhere viewer.isAdmin))
                  limit.toNat offset.toNat).1.length == limit.toNat⟩⟩ := by
  simp only [getHomeFeed] at h
  split at h
  · cases h
  · rename_i hcond
    simp only [Bool.or_eq_true, decide_eq_true_eq, not_or] at hcond
    refine ⟨min (jsOrInt lq 20) 100, jsOrInt oq 0, by omega, by omega, ?_⟩
    exact (Except.ok.inj h).symm

/-- Inversion of a successful topic-feed request. -/
theorem getTopicFeed_ok (db : DB) (viewer : Viewer) (topicId : Nat)
    (lq oq : Option Int) (resp : TopicFeedResponse)
    (h : getTopicFeed db viewer topicId lq oq = .ok resp) :
    ∃ limit offset : Int, 1 ≤ limit ∧ 0 ≤ offset ∧
      resp = ⟨topicId,
              (feedPage db viewer (db.posts.filter (topicWhere viewer.isAdmin topicId))
                  limit.toNat offset.toNat).2,
              ⟨limit, offset,
                (feedPage db viewer (db.posts.filter (topicWhere viewer.isAdmin topicId))
                  limit.toNat offset.toNat).1.length == limit.toNat⟩⟩ := by
  simp only [getTopicFeed] at h
  split at h
  · cases h
  · rename_i hcond
    simp only [Bool.or_eq_true, decide_eq_true_eq, not_or] at hcond
    split at h
    · cases h
    · refine ⟨min (jsOrInt lq 20) 100, jsOrInt oq 0, by omega, by omega, ?_⟩
      exact (Except.ok.inj h).symm

/-- Inversion of a successful author-feed request. -/
theorem getAuthorFeed_ok (db : DB) (viewer : Viewer) (authorId : Nat)
    (lq oq : Option Int) (resp : AuthorFeedResponse)
    (h : getAuthorFeed db viewer authorId lq oq = .ok resp) :
    ∃ limit offset : Int, 1 ≤ limit ∧ 0 ≤ offset ∧
      resp = ⟨authorId,
              (feedPage db viewer (db.posts.filter
                  (authorWhere (viewer.userId == some authorId || viewer.isAdmin) authorId))
                  limit.toNat offset.toNat).2,
              ⟨limit, offset,
                (feedPage db viewer (db.posts.filter
                  (authorWhere (viewer.userId == some authorId || viewer.isAdmin) authorId))
                  limit.toNat offset.toNat).1.length == limit.toNat⟩⟩ := by
  simp only [getAuthorFeed] at h
  split at h
  · cases h
  · rename_i hcond
    simp only [Bool.or_eq_true, decide_eq_true_eq, not_or] at hcond
    split at h
    · cases h
    · refine ⟨min (jsOrInt lq 20) 100, jsOrInt oq 0, by omega, by omega, ?_⟩
      exact (Except.ok.inj h).symm

/-- With a zero default, JavaScript's falsy fallback is the identity. -/
theorem jsOrInt_some_zero_default (v : Int) : jsOrInt (some v) 0 = v := by
  simp only [jsOrInt]
  split
  · omega
  · rfl

/-- Evaluating the home feed at limit 1 and a natural offset. -/
theorem getHomeFeed_eval_one (db : DB) (viewer : Viewer) (i : Nat) :
    getHomeFeed db viewer (some 1) (some (i : Int)) =
      .ok ⟨(feedPage db viewer (db.posts.filter (homeWhere viewer.isAdmin)) 1 i).2,
           ⟨1, (i : Int),
             (feedPage db viewer (db.posts.filter (homeWhere viewer.isAdmin)) 1 i).1.length == 1⟩⟩ := by
  have hoff : jsOrInt (some (i : Int)) 0 = (i : Int) := jsOrInt_some_zero_default _
  simp only [getHomeFeed, hoff]
  norm_num [jsOrInt]

/-- Evaluating the topic feed at limit 1 and a natural offset. -/
theorem getTopicFeed_eval_one (db : DB) (viewer : Viewer) (topicId : Nat)
    (ht : db.topics.contains topicId = true) (i : Nat) :
    getTopicFeed db viewer topicId (some 1) (some (i : Int)) =
      .ok ⟨topicId,
           (feedPage db viewer (db.posts.filter (topicWhere viewer.isAdmin topicId)) 1 i).2,
           ⟨1, (i : Int),
             (feedPage db viewer (db.posts.filter (topicWhere viewer.isAdmin topicId)) 1 i).1.length == 1⟩⟩ := by
  have hoff : jsOrInt (some (i : Int)) 0 = (i : Int) := jsOrInt_some_zero_default _
  simp only [getTopicFeed, hoff, ht]
  norm_num [jsOrInt]

/-- Evaluating the author feed at limit 1 and a natural offset. -/
theorem getAuthorFeed_eval_one (db : DB) (viewer : Viewer) (authorId : Nat)
    (ha : db.users.contains authorId = true) (i : Nat) :
    getAuthorFeed db viewer authorId (some 1) (some (i : Int)) =
      .ok ⟨authorId,
           (feedPage db viewer (db.posts.filter
             (authorWhere (viewer.userId == some authorId || viewer.isAdmin) authorId)) 1 i).2,
           ⟨1, (i : Int),
             (feedPage db viewer (db.posts.filter
               (authorWhere (viewer.userId == some authorId || viewer.isAdmin) authorId)) 1 i).1.length == 1⟩⟩ := by
  have hoff : jsOrInt (some (i : Int)) 0 = (i : Int) := jsOrInt_some_zero_default _
  simp only [getAuthorFeed, hoff, ha]
  norm_num [jsOrInt]

/-- Every row that passed the query's filter is on some one-row page of the
shared feed tail. -/
theorem feedPage_complete (db : DB) (viewer : Viewer) (filtered : List Post)
    (p : Post) (hp : p ∈ filtered) :
    ∃ i : Nat, enrichPost db viewer p ∈ (feedPage db viewer filtered 1 i).2 := by
  have hs : p ∈ filtered.insertionSort (fun a b => postRowLe a b = true) :=
    (List.mem_insertionSort _).mpr hp
  rcases exists_drop_take_singleton p _ hs with ⟨i, hi⟩
  refine ⟨i, ?_⟩
  show enrichPost db viewer p ∈
    ((((filtered.insertionSort (fun a b => postRowLe a b = true)).drop i).take 1).map
      (enrichPost db viewer)).insertionSort (fun a b => enrichedLe a b = true)
  rw [hi]
  exact (List.mem_insertionSort _).mpr (by simp)

end LearnLoop

namespace LearnLoop

/-- Claim C1: the claim says the comment list applies the visibility policy
(`deletedAt IS NULL AND (isHidden = false OR admin OR author)`) as a
query-level filter.  The handler does not: its only condition on the comment
query is `postId`, it receives no viewer identity, and it returns hidden
comments to everyone — here the hidden comment 10 of post 1 is returned in
full.  This theorem evaluates the embedded handler at that failing input. -/
theorem c1_comment_listing_returns_hidden_comment :
    (⟨10, 2, 1, 5, true⟩ : Comment).isHidden = true ∧
    listCommentsForPost c1db 1 none none =
      .ok ⟨[⟨10, 2, 1, 5, true⟩], ⟨1, 50, 0, false⟩⟩ := by
  constructor
  · rfl
  · rfl

/-- Claim C3 counterexample: user 7 is the author of the hidden, non-deleted
post of `c3db` and is authenticated and not an admin, yet both the home feed
and the topic feed return an empty page — the author does not see their own
hidden post there, contradicting the claim. -/
theorem c3_counterexample :
    c3post ∈ c3db.posts ∧ c3post.deletedAt = none ∧ c3post.isHidden = true ∧
    c3viewer.isAdmin = false ∧ c3viewer.userId = some c3post.authorId ∧
    getHomeFeed c3db c3viewer none none = .ok ⟨[], ⟨20, 0, false⟩⟩ ∧
    getTopicFeed c3db c3viewer 1 none none = .ok ⟨1, [], ⟨20, 0, false⟩⟩ := by
  refine ⟨?_, rfl, rfl, rfl, rfl, rfl, rfl⟩
  simp [c3db, c3post]

/-- Claim C3, amended: in the home and topic feeds a hidden post is never
returned to a non-admin viewer — including the post's own author — while an
admin finds every non-deleted post (hidden or not) on some page of either
feed.  The author-override of the visibility policy applies in the author
feed, not here. -/
theorem c3_home_topic_hidden_only_for_admins :
    (∀ (db : DB) (viewer : Viewer) (lq oq : Option Int) (resp : HomeFeedResponse)
       (e : EnrichedPost), viewer.isAdmin = false →
       getHomeFeed db viewer lq oq = .ok resp → e ∈ resp.posts → e.isHidden = false) ∧
    (∀ (db : DB) (viewer : Viewer) (tid : Nat) (lq oq : Option Int)
       (resp : TopicFeedResponse) (e : EnrichedPost), viewer.isAdmin = false →
       getTopicFeed db viewer tid lq oq = .ok resp → e ∈ resp.posts → e.isHidden = false) ∧
    (∀ (db : DB) (viewer : Viewer) (p : Post), viewer.isAdmin = true →
       p ∈ db.posts → p.deletedAt = none →
       ∃ (i : Nat) (resp : HomeFeedResponse),
         getHomeFeed db viewer (some 1) (some (i : Int)) = .ok resp ∧
           enrichPost db viewer p ∈ resp.posts) ∧
    (∀ (db : DB) (viewer : Viewer) (p : Post), viewer.isAdmin = true →
       p ∈ db.posts → p.deletedAt = none → p.primaryTopicId ∈ db.topics →
       ∃ (i : Nat) (resp : TopicFeedResponse),
         getTopicFeed db viewer p.primaryTopicId (some 1) (some (i : Int)) = .ok resp ∧
           enrichPost db viewer p ∈ resp.posts) := by
  refine ⟨?_, ?_, ?_, ?_⟩
  · intro db viewer lq oq resp e hadm hok hmem
    rcases getHomeFeed_ok db viewer lq oq resp hok with ⟨L, O, hL, hO, rfl⟩
    rcases mem_feedPage db viewer _ L.toNat O.toNat e hmem with ⟨p, hpf, rfl⟩
    rcases List.mem_filter.mp hpf with ⟨hpdb, hw⟩
    simp only [homeWhere, hadm, Bool.and_eq_true, Bool.or_eq_true, Bool.false_eq_true,
      false_or, Bool.not_eq_true'] at hw
    simp [enrichPost, hw.2]
  · intro db viewer tid lq oq resp e hadm hok hmem
    rcases getTopicFeed_ok db viewer tid lq oq resp hok with ⟨L, O, hL, hO, rfl⟩
    rcases mem_feedPage db viewer _ L.toNat O.toNat e hmem with ⟨p, hpf, rfl⟩
    rcases List.mem_filter.mp hpf with ⟨hpdb, hw⟩
    simp only [topicWhere, hadm, Bool.and_eq_true, Bool.or_eq_true, Bool.false_eq_true,
      false_or, Bool.not_eq_true'] at hw
    simp [enrichPost, hw.2.2]
  · intro db viewer p hadm hpdb hdel
    have hw : homeWhere viewer.isAdmin p = true := by
      simp [homeWhere, hadm, hdel]
    have hpf : p ∈ db.posts.filter (homeWhere viewer.isAdmin) :=
      List.mem_filter.mpr ⟨hpdb, hw⟩
    rcases feedPage_complete db viewer _ p hpf with ⟨i, hi⟩
    exact ⟨i, _, getHomeFeed_eval_one db viewer i, hi⟩
  · intro db viewer p hadm hpdb hdel htop
    have hw : topicWhere viewer.isAdmin p.primaryTopicId p = true := by
      simp [topicWhere, hadm, hdel]
    have hpf : p ∈ db.posts.filter (topicWhere viewer.isAdmin p.primaryTopicId) :=
      List.mem_filter.mpr ⟨hpdb, hw⟩
    rcases feedPage_complete db viewer _ p hpf with ⟨i, hi⟩
    have hc : db.topics.contains p.primaryTopicId = true := by
      simpa using htop
    exact ⟨i, _, getTopicFeed_eval_one db viewer p.primaryTopicId hc i, hi⟩

/-- Witness for the amended C3 theorem at concrete inputs: the non-admin part
at `exdb` (page member has `isHidden = false`) and the admin part at `c3db`
(the hidden post is found on page 0). -/
theorem c3_home_topic_hidden_only_for_admins_witness :
    ((⟨1, 10, 7, 1, 1, 0, false, false, none, false⟩ : EnrichedPost).isHidden = false) ∧
    (∃ (i : Nat) (resp : HomeFeedResponse),
      getHomeFeed c3db ⟨some 7, true⟩ (some 1) (some (i : Int)) = .ok resp ∧
        enrichPost c3db ⟨some 7, true⟩ c3post ∈ resp.posts) :=
  ⟨c3_home_topic_hidden_only_for_admins.1 exdb ⟨none, false⟩ none none
      ⟨[⟨1, 10, 7, 1, 1, 0, false, false, none, false⟩,
        ⟨2, 10, 7, 1, 0, 0, false, false, none, false⟩], ⟨20, 0, false⟩⟩
      ⟨1, 10, 7, 1, 1, 0, false, false, none, false⟩ rfl rfl (by decide),
   c3_home_topic_hidden_only_for_admins.2.2.1 c3db ⟨some 7, true⟩ c3post rfl
      (by decide) rfl⟩

/-- Claim C5: a post with a non-null `deletedAt` is excluded from the home,
topic and author feeds for every viewer: every enriched post of any
successful page is the enrichment of a row whose `deletedAt` is `none`. -/
theorem c5_soft_deleted_excluded_from_all_feeds :
    (∀ (db : DB) (viewer : Viewer) (lq oq : Option Int) (resp : HomeFeedResponse)
       (e : EnrichedPost), getHomeFeed db viewer lq oq = .ok resp → e ∈ resp.posts →
       ∃ p, p ∈ db.posts ∧ p.deletedAt = none ∧ e = enrichPost db viewer p) ∧
    (∀ (db : DB) (viewer : Viewer) (tid : Nat) (lq oq : Option Int)
       (resp : TopicFeedResponse) (e : EnrichedPost),
       getTopicFeed db viewer tid lq oq = .ok resp → e ∈ resp.posts →
       ∃ p, p ∈ db.posts ∧ p.deletedAt = none ∧ e = enrichPost db viewer p) ∧
    (∀ (db : DB) (viewer : Viewer) (aid : Nat) (lq oq : Option Int)
       (resp : AuthorFeedResponse) (e : EnrichedPost),
       getAuthorFeed db viewer aid lq oq = .ok resp → e ∈ resp.posts →
       ∃ p, p ∈ db.posts ∧ p.deletedAt = none ∧ e = enrichPost db viewer p) := by
  refine ⟨?_, ?_, ?_⟩
  · intro db viewer lq oq resp e hok hmem
    rcases getHomeFeed_ok db viewer lq oq resp hok with ⟨L, O, hL, hO, rfl⟩
    rcases mem_feedPage db viewer _ L.toNat O.toNat e hmem with ⟨p, hpf, rfl⟩
    rcases List.mem_filter.mp hpf with ⟨hpdb, hw⟩
    simp only [homeWhere, Bool.and_eq_true, beq_iff_eq] at hw
    exact ⟨p, hpdb, hw.1, rfl⟩
  · intro db viewer tid lq oq resp e hok hmem
    rcases getTopicFeed_ok db viewer tid lq oq resp hok with ⟨L, O, hL, hO, rfl⟩
    rcases mem_feedPage db viewer _ L.toNat O.toNat e hmem with ⟨p, hpf, rfl⟩
    rcases List.mem_filter.mp hpf with ⟨hpdb, hw⟩
    simp only [topicWhere, Bool.and_eq_true, beq_iff_eq] at hw
    exact ⟨p, hpdb, hw.2.1, rfl⟩
  · intro db viewer aid lq oq resp e hok hmem
    rcases getAuthorFeed_ok db viewer aid lq oq resp hok with ⟨L, O, hL, hO, rfl⟩
    rcases mem_feedPage db viewer _ L.toNat O.toNat e hmem with ⟨p, hpf, rfl⟩
    rcases List.mem_filter.mp hpf with ⟨hpdb, hw⟩
    simp only [authorWhere, Bool.and_eq_true, beq_iff_eq] at hw
    exact ⟨p, hpdb, hw.2.1, rfl⟩

/-- Witness for C5 at a concrete input: the home feed of `exdb` (which also
holds a soft-deleted post) returns a page whose head enriches the non-deleted
post 1. -/
theorem c5_soft_deleted_excluded_witness :
    ∃ p, p ∈ exdb.posts ∧ p.deletedAt = none ∧
      (⟨1, 10, 7, 1, 1, 0, false, false, none, false⟩ : EnrichedPost) =
        enrichPost exdb ⟨none, false⟩ p :=
  c5_soft_deleted_excluded_from_all_feeds.1 exdb ⟨none, false⟩ none none
    ⟨[⟨1, 10, 7, 1, 1, 0, false, false, none, false⟩,
      ⟨2, 10, 7, 1, 0, 0, false, false, none, false⟩], ⟨20, 0, false⟩⟩
    ⟨1, 10, 7, 1, 1, 0, false, false, none, false⟩ rfl (by decide)


/-- Bool-to-Prop reading of the client-side feed comparator. -/
theorem enrichedLe_eq_true_imp {a b : EnrichedPost} (h : enrichedLe a b = true) :
    b.createdAt < a.createdAt ∨ (a.createdAt = b.createdAt ∧ b.voteCount ≤ a.voteCount) := by
  simpa [enrichedLe, Bool.or_eq_true, Bool.and_eq_true, beq_iff_eq,
    decide_eq_true_eq] using h

/-- Claim C4: in the author feed, a non-deleted hidden post of the browsed
author appears on some returned page exactly when the viewer is an admin or
is that author; all other viewers never receive it on any page. -/
theorem c4_author_feed_hidden_iff_admin_or_self :
    ∀ (db : DB) (viewer : Viewer) (aid : Nat) (p : Post),
      aid ∈ db.users → p ∈ db.posts → p.authorId = aid → p.deletedAt = none →
      p.isHidden = true →
      ((∃ (lq oq : Option Int) (resp : AuthorFeedResponse),
          getAuthorFeed db viewer aid lq oq = .ok resp ∧
            enrichPost db viewer p ∈ resp.posts) ↔
        (viewer.isAdmin = true ∨ viewer.userId = some aid)) := by
  intro db viewer aid p ha hpdb hpa hdel hhid
  constructor
  · rintro ⟨lq, oq, resp, hok, hmem⟩
    by_contra hno
    push_neg at hno
    have hadm : viewer.isAdmin = false := by
      cases hv : viewer.isAdmin
      · rfl
      · exact absurd hv hno.1
    have hself : (viewer.userId == some aid) = false := by
      cases hv : viewer.userId == some aid
      · rfl
      · exact absurd (by simpa using hv) hno.2
    rcases getAuthorFeed_ok db viewer aid lq oq resp hok with ⟨L, O, hL, hO, rfl⟩
    rcases mem_feedPage db viewer _ L.toNat O.toNat _ hmem with ⟨q, hqf, heq⟩
    rcases List.mem_filter.mp hqf with ⟨hqdb, hw⟩
    simp only [hself, hadm, authorWhere, Bool.and_eq_true] at hw
    have hqh : q.isHidden = false := by
      simpa using hw.2.2
    have hiso : (enrichPost db viewer p).isHidden = (enrichPost db viewer q).isHidden := by
      rw [heq]
    simp only [enrichPost] at hiso
    rw [hhid, hqh] at hiso
    cases hiso
  · intro hyes
    have hsh : (viewer.userId == some aid || viewer.isAdmin) = true := by
      rcases hyes with h | h
      · simp [h]
      · simp [h]
    have hw : authorWhere (viewer.userId == some aid || viewer.isAdmin) aid p = true := by
      simp [authorWhere, hsh, hpa, hdel]
    have hpf : p ∈ db.posts.filter
        (authorWhere (viewer.userId == some aid || viewer.isAdmin) aid) :=
      List.mem_filter.mpr ⟨hpdb, hw⟩
    rcases feedPage_complete db viewer _ p hpf with ⟨i, hi⟩
    have hc : db.users.contains aid = true := by simpa using ha
    exact ⟨some 1, some (i : Int), _, getAuthorFeed_eval_one db viewer aid hc i, hi⟩

/-- Witness for C4 at a concrete input: in `exdb`, author 7 browsing their
own profile satisfies the right-hand side, so their hidden post 4 is on some
page of their author feed. -/
theorem c4_author_feed_hidden_iff_witness :
    (∃ (lq oq : Option Int) (resp : AuthorFeedResponse),
        getAuthorFeed exdb ⟨some 7, false⟩ 7 lq oq = .ok resp ∧
          enrichPost exdb ⟨some 7, false⟩ (mkPost 4 7 1 13 none true) ∈ resp.posts) ↔
      ((⟨some 7, false⟩ : Viewer).isAdmin = true ∨
        (⟨some 7, false⟩ : Viewer).userId = some 7) :=
  c4_author_feed_hidden_iff_admin_or_self exdb ⟨some 7, false⟩ 7
    (mkPost 4 7 1 13 none true) (by decide) (by decide) rfl rfl rfl

/-- Claim C9: within every returned page of the home, topic and author feeds
the posts are ordered by creation timestamp descending with vote count
descending among equal timestamps; across pages of the same request the
order does not hold, because the database paginates by `(createdAt, id)`
before the per-page re-sort — at `exdb` with limit 1, page 0 holds the
0-vote post and page 1 the 1-vote post of the same timestamp. -/
theorem c9_feed_page_ordering :
    (∀ (db : DB) (viewer : Viewer) (lq oq : Option Int) (resp : HomeFeedResponse),
      getHomeFeed db viewer lq oq = .ok resp →
      resp.posts.Pairwise (fun a b => b.createdAt < a.createdAt ∨
        (a.createdAt = b.createdAt ∧ b.voteCount ≤ a.voteCount))) ∧
    (∀ (db : DB) (viewer : Viewer) (tid : Nat) (lq oq : Option Int)
       (resp : TopicFeedResponse), getTopicFeed db viewer tid lq oq = .ok resp →
      resp.posts.Pairwise (fun a b => b.createdAt < a.createdAt ∨
        (a.createdAt = b.createdAt ∧ b.voteCount ≤ a.voteCount))) ∧
    (∀ (db : DB) (viewer : Viewer) (aid : Nat) (lq oq : Option Int)
       (resp : AuthorFeedResponse), getAuthorFeed db viewer aid lq oq = .ok resp →
      resp.posts.Pairwise (fun a b => b.createdAt < a.createdAt ∨
        (a.createdAt = b.createdAt ∧ b.voteCount ≤ a.voteCount))) ∧
    (getHomeFeed exdb ⟨none, false⟩ (some 1) none =
      .ok ⟨[⟨2, 10, 7, 1, 0, 0, false, false, none, false⟩], ⟨1, 0, true⟩⟩) ∧
    (getHomeFeed exdb ⟨none, false⟩ (some 1) (some 1) =
      .ok ⟨[⟨1, 10, 7, 1, 1, 0, false, false, none, false⟩], ⟨1, 1, true⟩⟩) ∧
    ¬ (([⟨2, 10, 7, 1, 0, 0, false, false, none, false⟩,
         ⟨1, 10, 7, 1, 1, 0, false, false, none, false⟩] : List EnrichedPost).Pairwise
        (fun a b => b.createdAt < a.createdAt ∨
          (a.createdAt = b.createdAt ∧ b.voteCount ≤ a.voteCount))) := by
  refine ⟨?_, ?_, ?_, rfl, rfl, by decide⟩
  · intro db viewer lq oq resp hok
    rcases getHomeFeed_ok db viewer lq oq resp hok with ⟨L, O, hL, hO, rfl⟩
    exact (feedPage_pairwise db viewer _ L.toNat O.toNat).imp
      (fun h => enrichedLe_eq_true_imp h)
  · intro db viewer tid lq oq resp hok
    rcases getTopicFeed_ok db viewer tid lq oq resp hok with ⟨L, O, hL, hO, rfl⟩
    exact (feedPage_pairwise db viewer _ L.toNat O.toNat).imp
      (fun h => enrichedLe_eq_true_imp h)
  · intro db viewer aid lq oq resp hok
    rcases getAuthorFeed_ok db viewer aid lq oq resp hok with ⟨L, O, hL, hO, rfl⟩
    exact (feedPage_pairwise db viewer _ L.toNat O.toNat).imp
      (fun h => enrichedLe_eq_true_imp h)

/-- Witness for C9 at a concrete input: the default home-feed page of `exdb`
is ordered by the claimed relation. -/
theorem c9_feed_page_ordering_witness :
    ([⟨1, 10, 7, 1, 1, 0, false, false, none, false⟩,
      ⟨2, 10, 7, 1, 0, 0, false, false, none, false⟩] : List EnrichedPost).Pairwise
      (fun a b => b.createdAt < a.createdAt ∨
        (a.createdAt = b.createdAt ∧ b.voteCount ≤ a.voteCount)) :=
  c9_feed_page_ordering.1 exdb ⟨none, false⟩ none none
    ⟨[⟨1, 10, 7, 1, 1, 0, false, false, none, false⟩,
      ⟨2, 10, 7, 1, 0, 0, false, false, none, false⟩], ⟨20, 0, false⟩⟩ rfl

/-- Claim C10: for the three feeds `hasMore` is true exactly when the
returned page filled the effective limit — so it can be true at an exact
page boundary with no further visible posts, as at `exdb` with limit 2 and
exactly two visible posts — while the comment listing computes `hasMore`
from the total count (`offset + limit < total`), which is exact. -/
theorem c10_hasMore_semantics :
    (∀ (db : DB) (viewer : Viewer) (lq oq : Option Int) (resp : HomeFeedResponse),
      getHomeFeed db viewer lq oq = .ok resp →
      (resp.pagination.hasMore = true ↔
        (resp.posts.length : Int) = resp.pagination.limit)) ∧
    (∀ (db : DB) (viewer : Viewer) (tid : Nat) (lq oq : Option Int)
       (resp : TopicFeedResponse), getTopicFeed db viewer tid lq oq = .ok resp →
      (resp.pagination.hasMore = true ↔
        (resp.posts.length : Int) = resp.pagination.limit)) ∧
    (∀ (db : DB) (viewer : Viewer) (aid : Nat) (lq oq : Option Int)
       (resp : AuthorFeedResponse), getAuthorFeed db viewer aid lq oq = .ok resp →
      (resp.pagination.hasMore = true ↔
        (resp.posts.length : Int) = resp.pagination.limit)) ∧
    (getHomeFeed exdb ⟨none, false⟩ (some 2) none =
      .ok ⟨[⟨1, 10, 7, 1, 1, 0, false, false, none, false⟩,
            ⟨2, 10, 7, 1, 0, 0, false, false, none, false⟩], ⟨2, 0, true⟩⟩ ∧
      (exdb.posts.filter (homeWhere false)).length = 2) ∧
    (∀ (db : DB) (pid : Nat) (lq oq : Option Int) (resp : CommentListResponse),
      listCommentsForPost db pid lq oq = .ok resp →
      (resp.pagination.hasMore = true ↔
        resp.pagination.offset + resp.pagination.limit <
          ((db.comments.filter (fun c => c.postId == pid)).length : Int))) := by
  refine ⟨?_, ?_, ?_, ⟨rfl, rfl⟩, ?_⟩
  · intro db viewer lq oq resp hok
    rcases getHomeFeed_ok db viewer lq oq resp hok with ⟨L, O, hL, hO, rfl⟩
    show ((feedPage _ _ _ _ _).1.length == L.toNat) = true ↔ _
    rw [show ((feedPage db viewer (db.posts.filter (homeWhere viewer.isAdmin))
      L.toNat O.toNat).2.length : Int) = ((feedPage db viewer
      (db.posts.filter (homeWhere viewer.isAdmin)) L.toNat O.toNat).1.length : Int) by
        rw [feedPage_length]]
    simp only [beq_iff_eq]
    omega
  · intro db viewer tid lq oq resp hok
    rcases getTopicFeed_ok db viewer tid lq oq resp hok with ⟨L, O, hL, hO, rfl⟩
    show ((feedPage _ _ _ _ _).1.length == L.toNat) = true ↔ _
    rw [show ((feedPage db viewer (db.posts.filter (topicWhere viewer.isAdmin tid))
      L.toNat O.toNat).2.length : Int) = ((feedPage db viewer
      (db.posts.filter (topicWhere viewer.isAdmin tid)) L.toNat O.toNat).1.length : Int) by
        rw [feedPage_length]]
    simp only [beq_iff_eq]
    omega
  · intro db viewer aid lq oq resp hok
    rcases getAuthorFeed_ok db viewer aid lq oq resp hok with ⟨L, O, hL, hO, rfl⟩
    show ((feedPage _ _ _ _ _).1.length == L.toNat) = true ↔ _
    rw [show ((feedPage db viewer (db.posts.filter (authorWhere
      (viewer.userId == some aid || viewer.isAdmin) aid)) L.toNat O.toNat).2.length : Int) =
      ((feedPage db viewer (db.posts.filter (authorWhere
      (viewer.userId == some aid || viewer.isAdmin) aid)) L.toNat O.toNat).1.length : Int) by
        rw [feedPage_length]]
    simp only [beq_iff_eq]
    omega
  · intro db pid lq oq resp hok
    simp only [listCommentsForPost] at hok
    split at hok
    · cases hok
    · cases hok
      simp [decide_eq_true_eq]

/-- Witness for C10 at a concrete input: the filled limit-2 page of `exdb`
reports `hasMore = true`. -/
theorem c10_hasMore_semantics_witness :
    ((⟨[⟨1, 10, 7, 1, 1, 0, false, false, none, false⟩,
        ⟨2, 10, 7, 1, 0, 0, false, false, none, false⟩],
       ⟨2, 0, true⟩⟩ : HomeFeedResponse).pagination.hasMore = true ↔
      (((⟨[⟨1, 10, 7, 1, 1, 0, false, false, none, false⟩,
          ⟨2, 10, 7, 1, 0, 0, false, false, none, false⟩],
         ⟨2, 0, true⟩⟩ : HomeFeedResponse).posts.length : Int) =
        (⟨[⟨1, 10, 7, 1, 1, 0, false, false, none, false⟩,
           ⟨2, 10, 7, 1, 0, 0, false, false, none, false⟩],
          ⟨2, 0, true⟩⟩ : HomeFeedResponse).pagination.limit)) :=
  c10_hasMore_semantics.1 exdb ⟨none, false⟩ (some 2) none
    ⟨[⟨1, 10, 7, 1, 1, 0, false, false, none, false⟩,
      ⟨2, 10, 7, 1, 0, 0, false, false, none, false⟩], ⟨2, 0, true⟩⟩ rfl


/-- The hide update preserves the lookup predicate of the submit
transaction, so `find?` commutes with it. -/
theorem find?_hide_map (l : List Post) (pid qid : Nat) :
    (l.map (fun q => if q.id == pid then { q with isHidden := true } else q)).find?
      (fun q => q.id == qid && q.deletedAt.isNone) =
    (l.find? (fun q => q.id == qid && q.deletedAt.isNone)).map
      (fun q => if q.id == pid then { q with isHidden := true } else q) :=
  find?_map_pres _ _ (fun a => by cases h : a.id == pid <;> simp [h]) l

/-- Inversion of a successful post-targeted report submission: the target
was found non-deleted, the self-report and duplicate checks passed, the
report row was appended, and the hidden flag was set exactly under the
transaction's threshold condition. -/
theorem submitReport_post_ok (db : DB) (u pid : Nat) (reason : ReportReason)
    (rid now : Nat) (db2 : DB) (rep : Report)
    (h : submitReport db u (some pid) none reason rid now = .ok (db2, rep)) :
    ∃ p, db.posts.find? (fun q => q.id == pid && q.deletedAt.isNone) = some p ∧
      (p.authorId == u) = false ∧
      db.reports.any (fun r => r.reporterId == u && r.postId == some pid) = false ∧
      rep = ⟨rid, u, some pid, none, reason, now⟩ ∧
      db2 = (if (5 ≤ ((db.reports ++ [(⟨rid, u, some pid, none, reason, now⟩ : Report)]).filter
                 (fun r => r.postId == some pid)).length && !p.isHidden) = true
             then hidePostDB
               { db with reports := db.reports ++ [⟨rid, u, some pid, none, reason, now⟩] } pid
             else { db with reports := db.reports ++ [⟨rid, u, some pid, none, reason, now⟩] }) := by
  simp only [submitReport] at h
  split at h
  · cases h
  · rename_i p hfind
    split at h
    · cases h
    · rename_i hauth
      split at h
      · cases h
      · rename_i hdup
        have hpair := Except.ok.inj h
        have hdb2 : db2 = _ := (congrArg Prod.fst hpair).symm
        have hrep : rep = ⟨rid, u, some pid, none, reason, now⟩ :=
          (congrArg Prod.snd hpair).symm
        exact ⟨p, hfind, Bool.of_not_eq_true hauth, Bool.of_not_eq_true hdup, hrep, hdb2⟩


/-- The comment hide update preserves the comment lookup predicate. -/
theorem find?_hideComment_map (l : List Comment) (cid qid : Nat) :
    (l.map (fun c => if c.id == cid then { c with isHidden := true } else c)).find?
      (fun c => c.id == qid) =
    (l.find? (fun c => c.id == qid)).map
      (fun c => if c.id == cid then { c with isHidden := true } else c) :=
  find?_map_pres _ _ (fun a => by cases h : a.id == cid <;> simp [h]) l

/-- Inversion of a successful comment-targeted report submission. -/
theorem submitReport_comment_ok (db : DB) (u cid : Nat) (reason : ReportReason)
    (rid now : Nat) (db2 : DB) (rep : Report)
    (h : submitReport db u none (some cid) reason rid now = .ok (db2, rep)) :
    ∃ c, db.comments.find? (fun q => q.id == cid) = some c ∧
      (c.authorId == u) = false ∧
      db.reports.any (fun r => r.reporterId == u && r.commentId == some cid) = false ∧
      rep = ⟨rid, u, none, some cid, reason, now⟩ ∧
      db2 = (if (5 ≤ ((db.reports ++ [(⟨rid, u, none, some cid, reason, now⟩ : Report)]).filter
                 (fun r => r.commentId == some cid)).length && !c.isHidden) = true
             then hideCommentDB
               { db with reports := db.reports ++ [⟨rid, u, none, some cid, reason, now⟩] } cid
             else { db with reports := db.reports ++ [⟨rid, u, none, some cid, reason, now⟩] }) := by
  simp only [submitReport] at h
  split at h
  · cases h
  · rename_i c hfind
    split at h
    · cases h
    · rename_i hauth
      split at h
      · cases h
      · rename_i hdup
        have hpair := Except.ok.inj h
        have hdb2 : db2 = _ := (congrArg Prod.fst hpair).symm
        have hrep : rep = ⟨rid, u, none, some cid, reason, now⟩ :=
          (congrArg Prod.snd hpair).symm
        exact ⟨c, hfind, Bool.of_not_eq_true hauth, Bool.of_not_eq_true hdup, hrep, hdb2⟩

/-- Claim C2: in one submit transaction the hidden flag goes false to true
exactly when the recomputed live count (which includes the inserted row)
reached 5; it never flips below the threshold, and the post is never left
unhidden once the count is at or above 5 — stated for post targets. -/
theorem submit_autohide_post_part :
    ∀ (db : DB) (u pid : Nat) (reason : ReportReason) (rid now : Nat)
      (db2 : DB) (rep : Report) (p : Post),
      db.posts.find? (fun q => q.id == pid && q.deletedAt.isNone) = some p →
      submitReport db u (some pid) none reason rid now = .ok (db2, rep) →
      ∃ p2, db2.posts.find? (fun q => q.id == pid && q.deletedAt.isNone) = some p2 ∧
        countPostReports db2 pid = countPostReports db pid + 1 ∧
        ((p.isHidden = false ∧ p2.isHidden = true) ↔
          (p.isHidden = false ∧ 5 ≤ countPostReports db2 pid)) ∧
        (countPostReports db2 pid < 5 → p2.isHidden = p.isHidden) ∧
        (5 ≤ countPostReports db2 pid → p2.isHidden = true) := by
  intro db u pid reason rid now db2 rep p hfind hsub
  rcases submitReport_post_ok db u pid reason rid now db2 rep hsub with
    ⟨q, hfind2, hauth, hdup, hrep, hdb2⟩
  have hq : q = p := Option.some.inj (hfind2.symm.trans hfind)
  subst hq
  have hpred := List.find?_some hfind2
  have hpid : (q.id == pid) = true := by
    simp only [Bool.and_eq_true] at hpred
    exact hpred.1
  have hcnt : ((db.reports ++ [(⟨rid, u, some pid, none, reason, now⟩ : Report)]).filter
      (fun r => r.postId == some pid)).length = countPostReports db pid + 1 := by
    simp [countPostReports, List.filter_append]
  cases hc : (5 ≤ ((db.reports ++ [(⟨rid, u, some pid, none, reason, now⟩ : Report)]).filter
      (fun r => r.postId == some pid)).length && !q.isHidden) with
  | true =>
    rw [hc] at hdb2
    simp only [if_true] at hdb2
    subst hdb2
    simp only [Bool.and_eq_true, decide_eq_true_eq, Bool.not_eq_true'] at hc
    obtain ⟨h5, hph⟩ := hc
    rw [hcnt] at h5
    have hcnt2 : countPostReports
        (hidePostDB { db with reports := db.reports ++
          [(⟨rid, u, some pid, none, reason, now⟩ : Report)] } pid) pid =
        countPostReports db pid + 1 := by
      simpa [countPostReports, hidePostDB] using hcnt
    refine ⟨{ q with isHidden := true }, ?_, hcnt2, ?_, ?_, ?_⟩
    · show (List.map _ _).find? _ = _
      rw [find?_hide_map]
      show (db.posts.find? _).map _ = _
      rw [hfind2]
      have hqid : q.id = pid := by simpa using hpid
      simp [hqid]
    · rw [hcnt2]
      constructor
      · rintro ⟨h1, h2⟩
        exact ⟨h1, by omega⟩
      · rintro ⟨h1, h2⟩
        exact ⟨h1, rfl⟩
    · rw [hcnt2]
      intro hlt
      omega
    · intro
      rfl
  | false =>
    rw [hc] at hdb2
    simp only [if_false, Bool.false_eq_true] at hdb2
    subst hdb2
    have hcnt2 : countPostReports
        ({ db with reports := db.reports ++
          [(⟨rid, u, some pid, none, reason, now⟩ : Report)] } : DB) pid =
        countPostReports db pid + 1 := by
      simpa [countPostReports] using hcnt
    have hfind3 : ({ db with reports := db.reports ++
        [(⟨rid, u, some pid, none, reason, now⟩ : Report)] } : DB).posts.find?
        (fun r => r.id == pid && r.deletedAt.isNone) = some q := hfind2
    simp only [Bool.and_eq_false_iff, decide_eq_false_iff_not, Bool.not_eq_false'] at hc
    refine ⟨q, hfind3, hcnt2, ?_, ?_, ?_⟩
    · rw [hcnt2]
      rcases hc with hc | hc
      · rw [hcnt] at hc
        constructor
        · rintro ⟨h1, h2⟩
          rw [h1] at h2
          cases h2
        · rintro ⟨h1, h2⟩
          exact absurd h2 hc
      · constructor
        · rintro ⟨h1, h2⟩
          rw [hc] at h1
          cases h1
        · rintro ⟨h1, h2⟩
          rw [hc] at h1
          cases h1
    · intro
      rfl
    · rw [hcnt2]
      intro h5
      rcases hc with hc | hc
      · rw [hcnt] at hc
        exact absurd h5 hc
      · exact hc

/-- The comment-target counterpart of `submit_autohide_post_part`. -/
theorem submit_autohide_comment_part :
    ∀ (db : DB) (u cid : Nat) (reason : ReportReason) (rid now : Nat)
      (db2 : DB) (rep : Report) (c : Comment),
      db.comments.find? (fun q => q.id == cid) = some c →
      submitReport db u none (some cid) reason rid now = .ok (db2, rep) →
      ∃ c2, db2.comments.find? (fun q => q.id == cid) = some c2 ∧
        countCommentReports db2 cid = countCommentReports db cid + 1 ∧
        ((c.isHidden = false ∧ c2.isHidden = true) ↔
          (c.isHidden = false ∧ 5 ≤ countCommentReports db2 cid)) ∧
        (countCommentReports db2 cid < 5 → c2.isHidden = c.isHidden) ∧
        (5 ≤ countCommentReports db2 cid → c2.isHidden = true) := by
  intro db u cid reason rid now db2 rep c hfind hsub
  rcases submitReport_comment_ok db u cid reason rid now db2 rep hsub with
    ⟨q, hfind2, hauth, hdup, hrep, hdb2⟩
  have hq : q = c := Option.some.inj (hfind2.symm.trans hfind)
  subst hq
  have hcid : (q.id == cid) = true := by
    have h0 := List.find?_some hfind2
    simpa using h0
  have hcnt : ((db.reports ++ [(⟨rid, u, none, some cid, reason, now⟩ : Report)]).filter
      (fun r => r.commentId == some cid)).length = countCommentReports db cid + 1 := by
    simp [countCommentReports, List.filter_append]
  cases hc : (5 ≤ ((db.reports ++ [(⟨rid, u, none, some cid, reason, now⟩ : Report)]).filter
      (fun r => r.commentId == some cid)).length && !q.isHidden) with
  | true =>
    rw [hc] at hdb2
    simp only [if_true] at hdb2
    subst hdb2
    simp only [Bool.and_eq_true, decide_eq_true_eq, Bool.not_eq_true'] at hc
    obtain ⟨h5, hph⟩ := hc
    rw [hcnt] at h5
    have hcnt2 : countCommentReports
        (hideCommentDB { db with reports := db.reports ++
          [(⟨rid, u, none, some cid, reason, now⟩ : Report)] } cid) cid =
        countCommentReports db cid + 1 := by
      simpa [countCommentReports, hideCommentDB] using hcnt
    refine ⟨{ q with isHidden := true }, ?_, hcnt2, ?_, ?_, ?_⟩
    · show (List.map _ _).find? _ = _
      rw [find?_hideComment_map]
      show (db.comments.find? _).map _ = _
      rw [hfind2]
      have hqid : q.id = cid := by simpa using hcid
      simp [hqid]
    · rw [hcnt2]
      constructor
      · rintro ⟨h1, h2⟩
        exact ⟨h1, by omega⟩
      · rintro ⟨h1, h2⟩
        exact ⟨h1, rfl⟩
    · rw [hcnt2]
      intro hlt
      omega
    · intro
      rfl
  | false =>
    rw [hc] at hdb2
    simp only [if_false, Bool.false_eq_true] at hdb2
    subst hdb2
    have hcnt2 : countCommentReports
        ({ db with reports := db.reports ++
          [(⟨rid, u, none, some cid, reason, now⟩ : Report)] } : DB) cid =
        countCommentReports db cid + 1 := by
      simpa [countCommentReports] using hcnt
    have hfind3 : ({ db with reports := db.reports ++
        [(⟨rid, u, none, some cid, reason, now⟩ : Report)] } : DB).comments.find?
        (fun r => r.id == cid) = some q := hfind2
    simp only [Bool.and_eq_false_iff, decide_eq_false_iff_not, Bool.not_eq_false'] at hc
    refine ⟨q, hfind3, hcnt2, ?_, ?_, ?_⟩
    · rw [hcnt2]
      rcases hc with hc | hc
      · rw [hcnt] at hc
        constructor
        · rintro ⟨h1, h2⟩
          rw [h1] at h2
          cases h2
        · rintro ⟨h1, h2⟩
          exact absurd h2 hc
      · constructor
        · rintro ⟨h1, h2⟩
          rw [hc] at h1
          cases h1
        · rintro ⟨h1, h2⟩
          rw [hc] at h1
          cases h1
    · intro
      rfl
    · rw [hcnt2]
      intro h5
      rcases hc with hc | hc
      · rw [hcnt] at hc
        exact absurd h5 hc
      · exact hc

/-- Claim C2: for every content item (post or comment), one submit
transaction inserts the report row, recomputes the live count, and flips the
hidden flag false-to-true exactly when that count reached 5 — never below
the threshold, and the item is never left unhidden at or above it. -/
theorem c2_autohide_exactly_at_threshold :
    (∀ (db : DB) (u pid : Nat) (reason : ReportReason) (rid now : Nat)
      (db2 : DB) (rep : Report) (p : Post),
      db.posts.find? (fun q => q.id == pid && q.deletedAt.isNone) = some p →
      submitReport db u (some pid) none reason rid now = .ok (db2, rep) →
      ∃ p2, db2.posts.find? (fun q => q.id == pid && q.deletedAt.isNone) = some p2 ∧
        countPostReports db2 pid = countPostReports db pid + 1 ∧
        ((p.isHidden = false ∧ p2.isHidden = true) ↔
          (p.isHidden = false ∧ 5 ≤ countPostReports db2 pid)) ∧
        (countPostReports db2 pid < 5 → p2.isHidden = p.isHidden) ∧
        (5 ≤ countPostReports db2 pid → p2.isHidden = true)) ∧
    (∀ (db : DB) (u cid : Nat) (reason : ReportReason) (rid now : Nat)
      (db2 : DB) (rep : Report) (c : Comment),
      db.comments.find? (fun q => q.id == cid) = some c →
      submitReport db u none (some cid) reason rid now = .ok (db2, rep) →
      ∃ c2, db2.comments.find? (fun q => q.id == cid) = some c2 ∧
        countCommentReports db2 cid = countCommentReports db cid + 1 ∧
        ((c.isHidden = false ∧ c2.isHidden = true) ↔
          (c.isHidden = false ∧ 5 ≤ countCommentReports db2 cid)) ∧
        (countCommentReports db2 cid < 5 → c2.isHidden = c.isHidden) ∧
        (5 ≤ countCommentReports db2 cid → c2.isHidden = true)) :=
  ⟨submit_autohide_post_part, submit_autohide_comment_part⟩

/-- The hide update also commutes with the plain id lookup. -/
theorem find?_hide_map_id (l : List Post) (pid qid : Nat) :
    (l.map (fun q => if q.id == pid then { q with isHidden := true } else q)).find?
      (fun q => q.id == qid) =
    (l.find? (fun q => q.id == qid)).map
      (fun q => if q.id == pid then { q with isHidden := true } else q) :=
  find?_map_pres _ _ (fun a => by cases h : a.id == pid <;> simp [h]) l

/-- A post-targeted submission succeeds, appending the report row and hiding
the post under the threshold condition, whenever the target exists
non-deleted, the reporter is not the author, and no prior report by the
reporter targets the post. -/
theorem submitReport_post_succeeds (db : DB) (u pid : Nat) (reason : ReportReason)
    (rid now : Nat) (p : Post)
    (hfind : db.posts.find? (fun q => q.id == pid) = some p)
    (hdel : p.deletedAt = none)
    (hauth : p.authorId ≠ u)
    (hdup : ∀ rr ∈ db.reports, rr.postId = some pid → rr.reporterId ≠ u) :
    submitReport db u (some pid) none reason rid now =
      .ok ((if 5 ≤ ((db.reports ++ [(⟨rid, u, some pid, none, reason, now⟩ : Report)]).filter
              (fun r => r.postId == some pid)).length && !p.isHidden
            then hidePostDB
              { db with reports := db.reports ++ [⟨rid, u, some pid, none, reason, now⟩] } pid
            else { db with reports := db.reports ++ [⟨rid, u, some pid, none, reason, now⟩] }),
           ⟨rid, u, some pid, none, reason, now⟩) := by
  have hfind2 : db.posts.find? (fun q => q.id == pid && q.deletedAt.isNone) = some p :=
    find?_and _ _ _ _ hfind (by simp [hdel])
  have h1 : (p.authorId == u) = false := by simp [hauth]
  have h2 : db.reports.any (fun r => r.reporterId == u && r.postId == some pid) = false := by
    cases hx : db.reports.any (fun r => r.reporterId == u && r.postId == some pid)
    · rfl
    · rcases List.any_eq_true.mp hx with ⟨rr, hrr, hb⟩
      simp only [Bool.and_eq_true, beq_iff_eq] at hb
      exact absurd hb.1 (hdup rr hrr hb.2)
  simp only [submitReport, hfind2, h1, h2]
  rfl

/-- A second report by the same reporter against the same post fails with
`Conflict`. -/
theorem submitReport_post_conflict (db : DB) (u pid : Nat) (reason : ReportReason)
    (rid now : Nat) (p : Post)
    (hfind : db.posts.find? (fun q => q.id == pid && q.deletedAt.isNone) = some p)
    (hauth : (p.authorId == u) = false)
    (hdup : db.reports.any (fun r => r.reporterId == u && r.postId == some pid) = true) :
    submitReport db u (some pid) none reason rid now = .error .conflict := by
  simp only [submitReport, hfind, hauth, hdup]
  simp


/-- When no report by reporter `u` targets post `pid`, a first submission
succeeds and a second submission by the same reporter against the same
target fails with `Conflict`, with exactly one pair row left. -/
theorem duplicate_conflict_post_part :
    ∀ (db : DB) (u pid : Nat) (r1 r2 : ReportReason) (rid1 rid2 now1 now2 : Nat)
      (db1 : DB) (rep1 : Report),
      (db.reports.filter (fun r => r.reporterId == u && r.postId == some pid)).length = 0 →
      submitReport db u (some pid) none r1 rid1 now1 = .ok (db1, rep1) →
      submitReport db1 u (some pid) none r2 rid2 now2 = .error .conflict ∧
      (db1.reports.filter (fun r => r.reporterId == u && r.postId == some pid)).length = 1 := by
  intro db u pid r1 r2 rid1 rid2 now1 now2 db1 rep1 h0 hsub
  rcases submitReport_post_ok db u pid r1 rid1 now1 db1 rep1 hsub with
    ⟨p, hfind, hauth, hdup, hrep, hdb1⟩
  have hnil : db.reports.filter (fun r => r.reporterId == u && r.postId == some pid) = [] :=
    List.length_eq_zero.mp h0
  have hreps : db1.reports =
      db.reports ++ [(⟨rid1, u, some pid, none, r1, now1⟩ : Report)] := by
    rw [hdb1]
    split
    · rfl
    · rfl
  have hexists : ∃ p1, db1.posts.find? (fun q => q.id == pid && q.deletedAt.isNone) = some p1 ∧
      (p1.authorId == u) = false := by
    rw [hdb1]
    split
    · refine ⟨(if p.id == pid then { p with isHidden := true } else p), ?_, ?_⟩
      · show (List.map _ _).find? _ = _
        rw [find?_hide_map]
        show (db.posts.find? _).map _ = _
        rw [hfind]
        rfl
      · cases h : p.id == pid <;> simpa [h] using hauth
    · exact ⟨p, hfind, hauth⟩
  rcases hexists with ⟨p1, hp1, hp1a⟩
  have hdup1 : db1.reports.any (fun r => r.reporterId == u && r.postId == some pid) = true := by
    rw [hreps]
    simp [List.any_append]
  refine ⟨submitReport_post_conflict db1 u pid r2 rid2 now2 p1 hp1 hp1a hdup1, ?_⟩
  rw [hreps, List.filter_append, hnil]
  simp

/-- A second report by the same reporter against the same comment fails with
`Conflict`. -/
theorem submitReport_comment_conflict (db : DB) (u cid : Nat) (reason : ReportReason)
    (rid now : Nat) (c : Comment)
    (hfind : db.comments.find? (fun q => q.id == cid) = some c)
    (hauth : (c.authorId == u) = false)
    (hdup : db.reports.any (fun r => r.reporterId == u && r.commentId == some cid) = true) :
    submitReport db u none (some cid) reason rid now = .error .conflict := by
  simp only [submitReport, hfind, hauth, hdup]
  simp

/-- The comment-target counterpart of `duplicate_conflict_post_part`. -/
theorem duplicate_conflict_comment_part :
    ∀ (db : DB) (u cid : Nat) (r1 r2 : ReportReason) (rid1 rid2 now1 now2 : Nat)
      (db1 : DB) (rep1 : Report),
      (db.reports.filter (fun r => r.reporterId == u && r.commentId == some cid)).length = 0 →
      submitReport db u none (some cid) r1 rid1 now1 = .ok (db1, rep1) →
      submitReport db1 u none (some cid) r2 rid2 now2 = .error .conflict ∧
      (db1.reports.filter (fun r => r.reporterId == u && r.commentId == some cid)).length = 1 := by
  intro db u cid r1 r2 rid1 rid2 now1 now2 db1 rep1 h0 hsub
  rcases submitReport_comment_ok db u cid r1 rid1 now1 db1 rep1 hsub with
    ⟨c, hfind, hauth, hdup, hrep, hdb1⟩
  have hnil : db.reports.filter (fun r => r.reporterId == u && r.commentId == some cid) = [] :=
    List.length_eq_zero.mp h0
  have hreps : db1.reports =
      db.reports ++ [(⟨rid1, u, none, some cid, r1, now1⟩ : Report)] := by
    rw [hdb1]
    split
    · rfl
    · rfl
  have hexists : ∃ c1, db1.comments.find? (fun q => q.id == cid) = some c1 ∧
      (c1.authorId == u) = false := by
    rw [hdb1]
    split
    · refine ⟨(if c.id == cid then { c with isHidden := true } else c), ?_, ?_⟩
      · show (List.map _ _).find? _ = _
        rw [find?_hideComment_map]
        show (db.comments.find? _).map _ = _
        rw [hfind]
        rfl
      · cases h : c.id == cid <;> simpa [h] using hauth
    · exact ⟨c, hfind, hauth⟩
  rcases hexists with ⟨c1, hc1, hc1a⟩
  have hdup1 : db1.reports.any (fun r => r.reporterId == u && r.commentId == some cid) = true := by
    rw [hreps]
    simp [List.any_append]
  refine ⟨submitReport_comment_conflict db1 u cid r2 rid2 now2 c1 hc1 hc1a hdup1, ?_⟩
  rw [hreps, List.filter_append, hnil]
  simp

/-- Claim C7: for every reporter and every target item (post or comment), if
no report for the pair exists, a first submission succeeds, a second
submission for the same pair fails with `Conflict` (no state transition),
and exactly one report row for the pair exists afterwards. -/
theorem c7_second_report_conflicts :
    (∀ (db : DB) (u pid : Nat) (r1 r2 : ReportReason) (rid1 rid2 now1 now2 : Nat)
      (db1 : DB) (rep1 : Report),
      (db.reports.filter (fun r => r.reporterId == u && r.postId == some pid)).length = 0 →
      submitReport db u (some pid) none r1 rid1 now1 = .ok (db1, rep1) →
      submitReport db1 u (some pid) none r2 rid2 now2 = .error .conflict ∧
      (db1.reports.filter (fun r => r.reporterId == u && r.postId == some pid)).length = 1) ∧
    (∀ (db : DB) (u cid : Nat) (r1 r2 : ReportReason) (rid1 rid2 now1 now2 : Nat)
      (db1 : DB) (rep1 : Report),
      (db.reports.filter (fun r => r.reporterId == u && r.commentId == some cid)).length = 0 →
      submitReport db u none (some cid) r1 rid1 now1 = .ok (db1, rep1) →
      submitReport db1 u none (some cid) r2 rid2 now2 = .error .conflict ∧
      (db1.reports.filter (fun r => r.reporterId == u && r.commentId == some cid)).length = 1) :=
  ⟨duplicate_conflict_post_part, duplicate_conflict_comment_part⟩

/-- Witness for C7 at a concrete input: user 1 reports post 1 of `c7db`, and
reporting it again conflicts while exactly one row for the pair exists. -/
theorem c7_second_report_conflicts_witness :
    (c7db.reports.filter (fun r => r.reporterId == 1 && r.postId == some 1)).length = 0 ∧
    submitReport c7db 1 (some 1) none .SPAM 0 0 = .ok (c7dbAfter, mkPostReport 0 1 1) ∧
    (submitReport c7dbAfter 1 (some 1) none .SPAM 1 1 = .error .conflict ∧
      (c7dbAfter.reports.filter (fun r => r.reporterId == 1 && r.postId == some 1)).length = 1) :=
  ⟨by decide, rfl,
    c7_second_report_conflicts.1 c7db 1 1 .SPAM .SPAM 0 1 0 1 c7dbAfter
      (mkPostReport 0 1 1) (by decide) rfl⟩

/-- Inversion of a successful post-targeted dismiss: the result state drops
every report row referencing the post and unhides it. -/
theorem dismissReports_post_ok (db : DB) (rid : Nat) (db2 : DB) (pid : Nat)
    (h : dismissReports db rid = .ok (db2, some pid, none)) :
    db2 = unhidePostDB
      { db with reports := db.reports.filter (fun r => !(r.postId == some pid)) } pid := by
  simp only [dismissReports] at h
  split at h
  · cases h
  · split at h
    · split at h
      · cases h
      · have h2 := Except.ok.inj h
        simp only [Prod.mk.injEq, Option.some.injEq] at h2
        rw [← h2.1, h2.2.1]
    · split at h
      · cases h
      · have h2 := Except.ok.inj h
        simp only [Prod.mk.injEq] at h2
        exact absurd h2.2.1 (by simp)
    · cases h

/-- Inversion of a successful comment-targeted dismiss. -/
theorem dismissReports_comment_ok (db : DB) (rid : Nat) (db2 : DB) (cid : Nat)
    (h : dismissReports db rid = .ok (db2, none, some cid)) :
    db2 = unhideCommentDB
      { db with reports := db.reports.filter (fun r => !(r.commentId == some cid)) } cid := by
  simp only [dismissReports] at h
  split at h
  · cases h
  · split at h
    · split at h
      · cases h
      · have h2 := Except.ok.inj h
        simp only [Prod.mk.injEq] at h2
        exact absurd h2.2.1 (by simp)
    · split at h
      · cases h
      · have h2 := Except.ok.inj h
        simp only [Prod.mk.injEq, Option.some.injEq] at h2
        rw [← h2.1, h2.2.2]
    · cases h

/-- Claim C6: dismissing a report, in one transaction, deletes every report
row referencing the resolved target and clears its hidden flag — afterwards
zero reports reference the target and it is unhidden, whatever its prior
hidden state (no hypothesis on it is made). -/
theorem c6_dismiss_deletes_reports_and_unhides :
    ∀ (db : DB) (rid : Nat) (db2 : DB) (pid cid : Nat),
      (dismissReports db rid = .ok (db2, some pid, none) →
        (db2.reports.filter (fun r => r.postId == some pid)).length = 0 ∧
        ∀ q ∈ db2.posts, q.id = pid → q.isHidden = false) ∧
      (dismissReports db rid = .ok (db2, none, some cid) →
        (db2.reports.filter (fun r => r.commentId == some cid)).length = 0 ∧
        ∀ q ∈ db2.comments, q.id = cid → q.isHidden = false) := by
  intro db rid db2 pid cid
  constructor
  · intro h
    have hdb2 := dismissReports_post_ok db rid db2 pid h
    subst hdb2
    constructor
    · show (((db.reports.filter _).filter _)).length = 0
      rw [List.filter_filter]
      simp
    · intro q hq hqid
      have hq2 : q ∈ db.posts.map
          (fun p => if p.id == pid then { p with isHidden := false } else p) := hq
      rcases List.mem_map.mp hq2 with ⟨q0, hq0, rfl⟩
      cases h0 : q0.id == pid
      · simp only [h0, Bool.false_eq_true, if_false] at hqid ⊢
        simp [hqid] at h0
      · simp [h0]
  · intro h
    have hdb2 := dismissReports_comment_ok db rid db2 cid h
    subst hdb2
    constructor
    · show (((db.reports.filter _).filter _)).length = 0
      rw [List.filter_filter]
      simp
    · intro q hq hqid
      have hq2 : q ∈ db.comments.map
          (fun c => if c.id == cid then { c with isHidden := false } else c) := hq
      rcases List.mem_map.mp hq2 with ⟨q0, hq0, rfl⟩
      cases h0 : q0.id == cid
      · simp only [h0, Bool.false_eq_true, if_false] at hqid ⊢
        simp [hqid] at h0
      · simp [h0]

/-- Witness for C6 at a concrete input: dismissing report 0 of `c6db`
(hidden post 1 with two reports) leaves zero reports on post 1 and every
post row with id 1 unhidden. -/
theorem c6_dismiss_deletes_reports_and_unhides_witness :
    (c6dbAfter.reports.filter (fun r => r.postId == some 1)).length = 0 ∧
    ∀ q ∈ c6dbAfter.posts, q.id = 1 → q.isHidden = false :=
  (c6_dismiss_deletes_reports_and_unhides c6db 0 c6dbAfter 1 0).1 rfl


/-- Witness for C2 at a concrete input: user 5's report is the fifth against
post 1 of `c2db`, and the transaction flips the hidden flag. -/
theorem c2_autohide_exactly_at_threshold_witness :
    (c2db.posts.find? (fun q => q.id == 1 && q.deletedAt.isNone) =
      some (mkPost 1 0 1 10 none false)) ∧
    (submitReport c2db 5 (some 1) none .SPAM 4 0 = .ok (c2dbAfter, mkPostReport 4 5 1)) ∧
    (∃ p2, c2dbAfter.posts.find? (fun q => q.id == 1 && q.deletedAt.isNone) = some p2 ∧
      countPostReports c2dbAfter 1 = countPostReports c2db 1 + 1 ∧
      (((mkPost 1 0 1 10 none false).isHidden = false ∧ p2.isHidden = true) ↔
        ((mkPost 1 0 1 10 none false).isHidden = false ∧ 5 ≤ countPostReports c2dbAfter 1)) ∧
      (countPostReports c2dbAfter 1 < 5 →
        p2.isHidden = (mkPost 1 0 1 10 none false).isHidden) ∧
      (5 ≤ countPostReports c2dbAfter 1 → p2.isHidden = true)) :=
  ⟨rfl, rfl,
    c2_autohide_exactly_at_threshold.1 c2db 5 1 .SPAM 4 0 c2dbAfter (mkPostReport 4 5 1)
      (mkPost 1 0 1 10 none false) rfl rfl⟩

/-- Serial-schedule invariant for repeated submissions against one post:
starting from a state whose hidden flag agrees with the threshold predicate,
running the listed distinct fresh non-author reporters adds one report each,
keeps the hidden flag equal to the threshold predicate on the live count,
and flips the flag exactly once when the run crosses the threshold. -/
theorem runSubmits_spec (pid a : Nat) :
    ∀ (l : List Nat) (db : DB) (p : Post),
      db.posts.find? (fun q => q.id == pid) = some p →
      p.deletedAt = none →
      p.authorId = a →
      p.isHidden = decide (5 ≤ countPostReports db pid) →
      l.Nodup →
      (∀ r ∈ l, r ≠ a) →
      (∀ r ∈ l, ∀ rr ∈ db.reports, rr.postId = some pid → rr.reporterId ≠ r) →
      countPostReports (runSubmits db pid l).1 pid = countPostReports db pid + l.length ∧
      hiddenOf (runSubmits db pid l).1 pid =
        decide (5 ≤ countPostReports db pid + l.length) ∧
      (runSubmits db pid l).2 =
        (if 5 ≤ countPostReports db pid + l.length then 1 else 0) -
          (if 5 ≤ countPostReports db pid then 1 else 0) := by
  intro l
  induction l with
  | nil =>
    intro db p hfind hdel ha hhid hnd hne hfresh
    refine ⟨by simp [runSubmits], ?_, ?_⟩
    · show hiddenOf db pid = _
      simp only [hiddenOf, hfind, List.length_nil, Nat.add_zero]
      exact hhid
    · show (0 : Nat) = _
      simp only [List.length_nil, Nat.add_zero]
      exact (Nat.sub_self _).symm
  | cons r rs ih =>
    intro db p hfind hdel ha hhid hnd hne hfresh
    have hpid : (p.id == pid) = true := by
      have h0 := List.find?_some hfind
      simpa using h0
    have hauth : p.authorId ≠ r := by
      rw [ha]
      exact Ne.symm (hne r (List.mem_cons_self r rs))
    have hdup : ∀ rr ∈ db.reports, rr.postId = some pid → rr.reporterId ≠ r :=
      fun rr hrr hpr => hfresh r (List.mem_cons_self r rs) rr hrr hpr
    have hstep := submitReport_post_succeeds db r pid .SPAM db.reports.length 0 p
      hfind hdel hauth hdup
    have hkk : ((db.reports ++
        [(⟨db.reports.length, r, some pid, none, .SPAM, 0⟩ : Report)]).filter
        (fun r2 => r2.postId == some pid)).length = countPostReports db pid + 1 := by
      simp [countPostReports, List.filter_append]
    have hOdb : hiddenOf db pid = p.isHidden := by
      simp [hiddenOf, hfind]
    have hndrs : rs.Nodup := (List.nodup_cons.mp hnd).2
    have hrnotin : r ∉ rs := (List.nodup_cons.mp hnd).1
    have hners : ∀ r2 ∈ rs, r2 ≠ a := fun r2 h2 => hne r2 (List.mem_cons_of_mem r h2)
    cases hc : (5 ≤ ((db.reports ++
        [(⟨db.reports.length, r, some pid, none, .SPAM, 0⟩ : Report)]).filter
        (fun r2 => r2.postId == some pid)).length && !p.isHidden) with
    | true =>
      rw [hc, if_pos rfl] at hstep
      simp only [Bool.and_eq_true, decide_eq_true_eq, Bool.not_eq_true'] at hc
      obtain ⟨h5, hpf⟩ := hc
      rw [hkk] at h5
      have hk4 : ¬ (5 ≤ countPostReports db pid) := by
        rw [hpf] at hhid
        intro hcon
        rw [decide_eq_true hcon] at hhid
        cases hhid
      -- the post-step state
      have hfind1 : (hidePostDB { db with reports := db.reports ++
          [(⟨db.reports.length, r, some pid, none, .SPAM, 0⟩ : Report)] } pid).posts.find?
          (fun q => q.id == pid) = some { p with isHidden := true } := by
        show (List.map _ _).find? _ = _
        rw [find?_hide_map_id]
        show (db.posts.find? _).map _ = _
        rw [hfind]
        have hqid : p.id = pid := by simpa using hpid
        simp [hqid]
      have hcnt1 : countPostReports (hidePostDB { db with reports := db.reports ++
          [(⟨db.reports.length, r, some pid, none, .SPAM, 0⟩ : Report)] } pid) pid =
          countPostReports db pid + 1 := by
        simpa [countPostReports, hidePostDB] using hkk
      have hfresh1 : ∀ r2 ∈ rs, ∀ rr ∈ (hidePostDB { db with reports := db.reports ++
          [(⟨db.reports.length, r, some pid, none, .SPAM, 0⟩ : Report)] } pid).reports,
          rr.postId = some pid → rr.reporterId ≠ r2 := by
        intro r2 h2 rr hrr hpr
        rcases List.mem_append.mp hrr with hrr | hrr
        · exact hfresh r2 (List.mem_cons_of_mem r h2) rr hrr hpr
        · rcases List.mem_singleton.mp hrr with rfl
          intro he
          apply hrnotin
          have hre : r = r2 := by simpa using he
          rwa [hre]
      have ihr := ih (hidePostDB { db with reports := db.reports ++
          [(⟨db.reports.length, r, some pid, none, .SPAM, 0⟩ : Report)] } pid)
        { p with isHidden := true } hfind1 hdel ha
        (by rw [hcnt1]; exact (decide_eq_true (by omega)).symm)
        hndrs hners hfresh1
      rw [hcnt1] at ihr
      have hO1 : hiddenOf (hidePostDB { db with reports := db.reports ++
          [(⟨db.reports.length, r, some pid, none, .SPAM, 0⟩ : Report)] } pid) pid = true := by
        simp [hiddenOf, hfind1]
      simp only [runSubmits, hstep]
      refine ⟨?_, ?_, ?_⟩
      · rw [ihr.1]
        simp only [List.length_cons]
        omega
      · rw [ihr.2.1]
        have he : countPostReports db pid + 1 + rs.length =
            countPostReports db pid + (r :: rs).length := by
          simp only [List.length_cons]
          omega
        rw [he]
      · rw [hOdb, hpf, hO1]
        simp only [if_pos (And.intro rfl rfl)]
        rw [ihr.2.2]
        simp only [List.length_cons]
        have e1 : (if 5 ≤ countPostReports db pid + 1 then 1 else 0) = 1 := if_pos h5
        have e2 : (if 5 ≤ countPostReports db pid + 1 + rs.length then 1 else 0) = 1 :=
          if_pos (by omega)
        have e3 : (if 5 ≤ countPostReports db pid + (rs.length + 1) then 1 else 0) = 1 :=
          if_pos (by omega)
        have e4 : (if 5 ≤ countPostReports db pid then 1 else 0) = 0 := if_neg hk4
        rw [e1, e2, e3, e4]
        simp
    | false =>
      rw [hc, if_neg (by simp)] at hstep
      have hor : ¬ (5 ≤ countPostReports db pid + 1) ∨ p.isHidden = true := by
        rcases Bool.and_eq_false_iff.mp hc with hx | hx
        · left
          rw [hkk] at hx
          simpa using hx
        · right
          simpa using hx
      have hhid1 : p.isHidden = decide (5 ≤ countPostReports db pid + 1) := by
        rcases hor with hx | hx
        · rw [decide_eq_false hx]
          rw [hhid]
          have : ¬ (5 ≤ countPostReports db pid) := by omega
          rw [decide_eq_false this]
        · rw [hx] at hhid ⊢
          have h5k : 5 ≤ countPostReports db pid := of_decide_eq_true hhid.symm
          exact (decide_eq_true (by omega)).symm
      have hfind1 : ({ db with reports := db.reports ++
          [(⟨db.reports.length, r, some pid, none, .SPAM, 0⟩ : Report)] } : DB).posts.find?
          (fun q => q.id == pid) = some p := hfind
      have hcnt1 : countPostReports ({ db with reports := db.reports ++
          [(⟨db.reports.length, r, some pid, none, .SPAM, 0⟩ : Report)] } : DB) pid =
          countPostReports db pid + 1 := by
        simpa [countPostReports] using hkk
      have hfresh1 : ∀ r2 ∈ rs, ∀ rr ∈ ({ db with reports := db.reports ++
          [(⟨db.reports.length, r, some pid, none, .SPAM, 0⟩ : Report)] } : DB).reports,
          rr.postId = some pid → rr.reporterId ≠ r2 := by
        intro r2 h2 rr hrr hpr
        rcases List.mem_append.mp hrr with hrr | hrr
        · exact hfresh r2 (List.mem_cons_of_mem r h2) rr hrr hpr
        · rcases List.mem_singleton.mp hrr with rfl
          intro he
          apply hrnotin
          have hre : r = r2 := by simpa using he
          rwa [hre]
      have ihr := ih ({ db with reports := db.reports ++
          [(⟨db.reports.length, r, some pid, none, .SPAM, 0⟩ : Report)] } : DB) p
        hfind1 hdel ha (by rw [hcnt1]; exact hhid1) hndrs hners hfresh1
      rw [hcnt1] at ihr
      have hO1 : hiddenOf ({ db with reports := db.reports ++
          [(⟨db.reports.length, r, some pid, none, .SPAM, 0⟩ : Report)] } : DB) pid =
          p.isHidden := by
        simp [hiddenOf, hfind1]
      simp only [runSubmits, hstep]
      refine ⟨?_, ?_, ?_⟩
      · rw [ihr.1]
        simp only [List.length_cons]
        omega
      · rw [ihr.2.1]
        have he : countPostReports db pid + 1 + rs.length =
            countPostReports db pid + (r :: rs).length := by
          simp only [List.length_cons]
          omega
        rw [he]
      · rw [hOdb, hO1]
        have hflip : (if p.isHidden = false ∧ p.isHidden = true then 1 else 0) = 0 := by
          rw [if_neg]
          rintro ⟨e1, e2⟩
          rw [e1] at e2
          cases e2
        rw [hflip, ihr.2.2]
        simp only [List.length_cons]
        have hco : countPostReports db pid + 1 + rs.length =
            countPostReports db pid + (rs.length + 1) := by omega
        rw [hco]
        rcases hor with hx | hx
        · have e1 : (if 5 ≤ countPostReports db pid + 1 then 1 else 0) = 0 := if_neg hx
          have e4 : (if 5 ≤ countPostReports db pid then 1 else 0) = 0 :=
            if_neg (by omega)
          rw [e1, e4]
          omega
        · have h5k : 5 ≤ countPostReports db pid := by
            rw [hx] at hhid
            exact of_decide_eq_true hhid.symm
          have e1 : (if 5 ≤ countPostReports db pid + 1 then 1 else 0) = 1 :=
            if_pos (by omega)
          have e3 : (if 5 ≤ countPostReports db pid + (rs.length + 1) then 1 else 0) = 1 :=
            if_pos (by omega)
          have e4 : (if 5 ≤ countPostReports db pid then 1 else 0) = 1 := if_pos h5k
          rw [e1, e3, e4]


/-- Claim C8: with the transaction modelled as atomic, any serial order of
N distinct non-author reporters against an unhidden, unreported post ends
with the post hidden, with report count N, and with exactly one false-to-true
flip of the hidden flag over the whole run (once N reaches the threshold):
no schedule lets two submissions both skip the hide or both perform it. -/
theorem c8_threshold_crossing_single_flip :
    ∀ (db : DB) (pid a : Nat) (p : Post) (reporters : List Nat),
      db.posts.find? (fun q => q.id == pid) = some p →
      p.deletedAt = none →
      p.authorId = a →
      p.isHidden = false →
      db.reports.filter (fun r => r.postId == some pid) = [] →
      reporters.Nodup →
      (∀ r ∈ reporters, r ≠ a) →
      5 ≤ reporters.length →
      hiddenOf (runSubmits db pid reporters).1 pid = true ∧
      countPostReports (runSubmits db pid reporters).1 pid = reporters.length ∧
      (runSubmits db pid reporters).2 = 1 := by
  intro db pid a p l hfind hdel ha hpf hnorep hnd hne h5
  have hcnt0 : countPostReports db pid = 0 := by
    simp [countPostReports, hnorep]
  have hhid : p.isHidden = decide (5 ≤ countPostReports db pid) := by
    rw [hcnt0, hpf]
    rfl
  have hfresh : ∀ r ∈ l, ∀ rr ∈ db.reports, rr.postId = some pid → rr.reporterId ≠ r := by
    intro r hr rr hrr hpr
    have hmem : rr ∈ db.reports.filter (fun r2 => r2.postId == some pid) :=
      List.mem_filter.mpr ⟨hrr, by simp [hpr]⟩
    rw [hnorep] at hmem
    cases hmem
  have hmain := runSubmits_spec pid a l db p hfind hdel ha hhid hnd hne hfresh
  rw [hcnt0] at hmain
  refine ⟨?_, ?_, ?_⟩
  · rw [hmain.2.1]
    simp only [Nat.zero_add]
    exact decide_eq_true h5
  · rw [hmain.1]
    omega
  · rw [hmain.2.2]
    rw [if_pos (by omega), if_neg (by omega)]

/-- Witness for C8 at a concrete input: five distinct reporters against the
fresh post 1 of `c8db` leave it hidden with five reports and one flip. -/
theorem c8_threshold_crossing_single_flip_witness :
    hiddenOf (runSubmits c8db 1 [1, 2, 3, 4, 5]).1 1 = true ∧
    countPostReports (runSubmits c8db 1 [1, 2, 3, 4, 5]).1 1 = [1, 2, 3, 4, 5].length ∧
    (runSubmits c8db 1 [1, 2, 3, 4, 5]).2 = 1 :=
  c8_threshold_crossing_single_flip c8db 1 0 (mkPost 1 0 1 10 none false)
    [1, 2, 3, 4, 5] rfl rfl rfl rfl rfl (by decide) (by decide) (by decide)

end LearnLoop
